import Mathlib

/-! # Geometry predicates of `src/wasm/geometry.c`

Shallow embedding of the two exported predicates `segments_intersect` and
`bbox_overlap`, together with the static helpers `dir` and `onSeg`.

A `double` is read as an element of an arbitrary linearly ordered field `α`
with exact arithmetic (so the results hold for `ℝ`, and the definitions can be
evaluated on `ℚ`).  The constant `EPS` is the exact value of the double written
`1e-9` in the source.  The C `int` results are values of `Int`; a C `bool` is a
`Bool`.  `fabs`, `fmin` and `fmax` are `|·|`, `min` and `max`.

The section `IEEE` embeds `bbox_overlap` a second time over doubles that may be
NaN, where every comparison involving NaN is false.
-/

namespace Geometry

variable {α : Type*} [LinearOrderedField α]

/-! ## The code -/

/-- The tolerance `const double EPS=1e-9;` of `segments_intersect`: the value of the
double that the literal `1e-9` denotes, `0x1.12e0be826d695p-30`, which is
`4835703278458517 / 2^82` (the double nearest to `10^-9`, above it by about `6.2e-26`). -/
def EPS : α := 4835703278458517 / 2 ^ 82

/-- Orientation value: `(x2-x1)*(y3-y1)-(y2-y1)*(x3-x1)`. -/
def dir (x1 y1 x2 y2 x3 y3 : α) : α :=
  (x2 - x1) * (y3 - y1) - (y2 - y1) * (x3 - x1)

/-- Bounding rectangle test:
`x3>=fmin(x1,x2)&&x3<=fmax(x1,x2)&&y3>=fmin(y1,y2)&&y3<=fmax(y1,y2)`. -/
def onSeg (x1 y1 x2 y2 x3 y3 : α) : Bool :=
  decide (x3 ≥ min x1 x2) && decide (x3 ≤ max x1 x2) &&
    decide (y3 ≥ min y1 y2) && decide (y3 ≤ max y1 y2)

/-- The exported `int segments_intersect(...)`: the proper crossing test, then
the four collinear tests in the order of the source, then `return 0`. -/
def segments_intersect (p1x p1y p2x p2y p3x p3y p4x p4y : α) : Int :=
  let d1 := dir p3x p3y p4x p4y p1x p1y
  let d2 := dir p3x p3y p4x p4y p2x p2y
  let d3 := dir p1x p1y p2x p2y p3x p3y
  let d4 := dir p1x p1y p2x p2y p4x p4y
  if ((d1 > EPS ∧ d2 < -EPS) ∨ (d1 < -EPS ∧ d2 > EPS)) ∧
      ((d3 > EPS ∧ d4 < -EPS) ∨ (d3 < -EPS ∧ d4 > EPS)) then 1
  else if |d1| < EPS ∧ onSeg p3x p3y p4x p4y p1x p1y = true then 1
  else if |d2| < EPS ∧ onSeg p3x p3y p4x p4y p2x p2y = true then 1
  else if |d3| < EPS ∧ onSeg p1x p1y p2x p2y p3x p3y = true then 1
  else if |d4| < EPS ∧ onSeg p1x p1y p2x p2y p4x p4y = true then 1
  else 0

/-- The exported `int bbox_overlap(...)`:
`return !(axmax<bxmin||bxmax<axmin||aymax<bymin||bymax<aymin);`. -/
def bbox_overlap (axmin axmax aymin aymax bxmin bxmax bymin bymax : α) : Int :=
  if axmax < bxmin ∨ bxmax < axmin ∨ aymax < bymin ∨ bymax < aymin then 0 else 1

/-! ## The code over doubles that may be NaN -/

/-- A `double` that is either a number or NaN. -/
inductive Dbl (α : Type*) where
  | num : α → Dbl α
  | nan : Dbl α

/-- The comparison `<` of IEEE-754: false as soon as one side is NaN. -/
def Dbl.lt : Dbl α → Dbl α → Bool
  | .num a, .num b => decide (a < b)
  | _, _ => false

namespace IEEE

/-- The body of `bbox_overlap` evaluated with the NaN-aware comparison. -/
def bbox_overlap (axmin axmax aymin aymax bxmin bxmax bymin bymax : Dbl α) : Int :=
  if (Dbl.lt axmax bxmin || Dbl.lt bxmax axmin || Dbl.lt aymax bymin
      || Dbl.lt bymax aymin) = true then 0 else 1

/-- The argument actually passed: NaN where the flag is set, the number otherwise. -/
def withNaN (flag : Bool) (a : α) : Dbl α :=
  if flag then Dbl.nan else Dbl.num a

end IEEE

/-! ## Specification vocabulary -/

/-- The point `(cx, cy)` lies on the closed segment from `(ax, ay)` to `(bx, by)`. -/
def OnClosedSegment (ax ay bx by_ cx cy : α) : Prop :=
  ∃ t : α, 0 ≤ t ∧ t ≤ 1 ∧ cx = ax + t * (bx - ax) ∧ cy = ay + t * (by_ - ay)

/-- The closed segments `p1–p2` and `p3–p4` have a point in common. -/
def SegmentsMeet (p1x p1y p2x p2y p3x p3y p4x p4y : α) : Prop :=
  ∃ x y : α, OnClosedSegment p1x p1y p2x p2y x y ∧ OnClosedSegment p3x p3y p4x p4y x y

/-- The point `(cx, cy)` is inside the inclusive bounding rectangle of
`(ax, ay)` and `(bx, by)`. -/
def InRect (ax ay bx by_ cx cy : α) : Prop :=
  min ax bx ≤ cx ∧ cx ≤ max ax bx ∧ min ay by_ ≤ cy ∧ cy ≤ max ay by_

/-- Two values of strictly opposite signs. -/
def Opposite (a b : α) : Prop := (0 < a ∧ b < 0) ∨ (a < 0 ∧ 0 < b)

/-- The exact orientation test: what `segments_intersect` computes when the
tolerance is replaced by zero. -/
def ExactTest (p1x p1y p2x p2y p3x p3y p4x p4y : α) : Prop :=
  (Opposite (dir p3x p3y p4x p4y p1x p1y) (dir p3x p3y p4x p4y p2x p2y) ∧
      Opposite (dir p1x p1y p2x p2y p3x p3y) (dir p1x p1y p2x p2y p4x p4y)) ∨
    (dir p3x p3y p4x p4y p1x p1y = 0 ∧ InRect p3x p3y p4x p4y p1x p1y) ∨
    (dir p3x p3y p4x p4y p2x p2y = 0 ∧ InRect p3x p3y p4x p4y p2x p2y) ∨
    (dir p1x p1y p2x p2y p3x p3y = 0 ∧ InRect p1x p1y p2x p2y p3x p3y) ∨
    (dir p1x p1y p2x p2y p4x p4y = 0 ∧ InRect p1x p1y p2x p2y p4x p4y)

/-- The condition under which the tolerance plays no role: the orientation value
is exactly zero or exceeds `EPS` in absolute value. -/
def Decisive (d : α) : Prop := d = 0 ∨ EPS < |d|

/-! ## Basic facts -/

theorem EPS_pos : (0 : α) < EPS := by
  unfold EPS; positivity

/-- The constant is a double of exponent `-30` (a 53-bit significand over `2^82`) and
lies within half a unit in the last place, `2^-83`, of `10^-9`, strictly above it. -/
theorem EPS_nearest_double :
    (2 : α) ^ 52 ≤ 4835703278458517 ∧ (4835703278458517 : α) < 2 ^ 53 ∧
      (1 : α) / 10 ^ 9 < EPS ∧ (EPS : α) - 1 / 10 ^ 9 < 1 / 2 ^ 83 := by
  unfold EPS
  refine ⟨by norm_num, by norm_num, by norm_num, by norm_num⟩

theorem onSeg_iff (x1 y1 x2 y2 x3 y3 : α) :
    onSeg x1 y1 x2 y2 x3 y3 = true ↔ InRect x1 y1 x2 y2 x3 y3 := by
  simp only [onSeg, InRect, Bool.and_eq_true, decide_eq_true_eq, ge_iff_le, and_assoc]

/-- The value of `segments_intersect` as one proposition. -/
theorem segments_intersect_eq_one_iff (p1x p1y p2x p2y p3x p3y p4x p4y : α) :
    segments_intersect p1x p1y p2x p2y p3x p3y p4x p4y = 1 ↔
      ((((dir p3x p3y p4x p4y p1x p1y > EPS ∧ dir p3x p3y p4x p4y p2x p2y < -EPS) ∨
          (dir p3x p3y p4x p4y p1x p1y < -EPS ∧ dir p3x p3y p4x p4y p2x p2y > EPS)) ∧
        ((dir p1x p1y p2x p2y p3x p3y > EPS ∧ dir p1x p1y p2x p2y p4x p4y < -EPS) ∨
          (dir p1x p1y p2x p2y p3x p3y < -EPS ∧ dir p1x p1y p2x p2y p4x p4y > EPS))) ∨
       (|dir p3x p3y p4x p4y p1x p1y| < EPS ∧ InRect p3x p3y p4x p4y p1x p1y) ∨
       (|dir p3x p3y p4x p4y p2x p2y| < EPS ∧ InRect p3x p3y p4x p4y p2x p2y) ∨
       (|dir p1x p1y p2x p2y p3x p3y| < EPS ∧ InRect p1x p1y p2x p2y p3x p3y) ∨
       (|dir p1x p1y p2x p2y p4x p4y| < EPS ∧ InRect p1x p1y p2x p2y p4x p4y)) := by
  simp only [segments_intersect, ← onSeg_iff]
  split_ifs with h0 h1 h2 h3 h4
  · exact iff_of_true rfl (Or.inl h0)
  · exact iff_of_true rfl (Or.inr (Or.inl h1))
  · exact iff_of_true rfl (Or.inr (Or.inr (Or.inl h2)))
  · exact iff_of_true rfl (Or.inr (Or.inr (Or.inr (Or.inl h3))))
  · exact iff_of_true rfl (Or.inr (Or.inr (Or.inr (Or.inr h4))))
  · exact iff_of_false (by decide)
      (fun h => h.elim h0 (fun h => h.elim h1 (fun h => h.elim h2 (fun h => h.elim h3 h4))))

theorem segments_intersect_zero_or_one (p1x p1y p2x p2y p3x p3y p4x p4y : α) :
    segments_intersect p1x p1y p2x p2y p3x p3y p4x p4y = 0 ∨
      segments_intersect p1x p1y p2x p2y p3x p3y p4x p4y = 1 := by
  simp only [segments_intersect]
  split_ifs <;> simp

theorem bbox_overlap_eq_one_iff (axmin axmax aymin aymax bxmin bxmax bymin bymax : α) :
    bbox_overlap axmin axmax aymin aymax bxmin bxmax bymin bymax = 1 ↔
      ¬ (axmax < bxmin ∨ bxmax < axmin ∨ aymax < bymin ∨ bymax < aymin) := by
  unfold bbox_overlap
  split_ifs with h <;> simp [h]

theorem bbox_overlap_eq_zero_iff (axmin axmax aymin aymax bxmin bxmax bymin bymax : α) :
    bbox_overlap axmin axmax aymin aymax bxmin bxmax bymin bymax = 0 ↔
      (axmax < bxmin ∨ bxmax < axmin ∨ aymax < bymin ∨ bymax < aymin) := by
  unfold bbox_overlap
  split_ifs with h <;> simp [h]

/-! ## Points on a segment -/

theorem dir_affine (ax ay bx by_ cx cy dx dy t : α) :
    dir ax ay bx by_ (cx + t * (dx - cx)) (cy + t * (dy - cy)) =
      (1 - t) * dir ax ay bx by_ cx cy + t * dir ax ay bx by_ dx dy := by
  unfold dir; ring

theorem dir_of_onClosedSegment {ax ay bx by_ cx cy : α}
    (h : OnClosedSegment ax ay bx by_ cx cy) : dir ax ay bx by_ cx cy = 0 := by
  obtain ⟨t, -, -, hx, hy⟩ := h
  subst hx hy
  unfold dir; ring

theorem between_of_convex {a b t : α} (h0 : 0 ≤ t) (h1 : t ≤ 1) :
    min a b ≤ a + t * (b - a) ∧ a + t * (b - a) ≤ max a b := by
  rcases le_total a b with hab | hab
  · rw [min_eq_left hab, max_eq_right hab]
    constructor <;> nlinarith
  · rw [min_eq_right hab, max_eq_left hab]
    constructor <;> nlinarith

theorem inRect_of_onClosedSegment {ax ay bx by_ cx cy : α}
    (h : OnClosedSegment ax ay bx by_ cx cy) : InRect ax ay bx by_ cx cy := by
  obtain ⟨t, h0, h1, hx, hy⟩ := h
  subst hx hy
  exact ⟨(between_of_convex h0 h1).1, (between_of_convex h0 h1).2,
    (between_of_convex h0 h1).1, (between_of_convex h0 h1).2⟩

theorem onClosedSegment_left (ax ay bx by_ : α) : OnClosedSegment ax ay bx by_ ax ay :=
  ⟨0, le_refl 0, zero_le_one, by ring, by ring⟩

theorem onClosedSegment_right (ax ay bx by_ : α) : OnClosedSegment ax ay bx by_ bx by_ :=
  ⟨1, zero_le_one, le_refl 1, by ring, by ring⟩

/-- A point of the line through `a` and `b` whose abscissa is within the span of
the segment lies on the segment, when the segment is not vertical. -/
theorem onClosedSegment_of_dir_x {ax ay bx by_ cx cy : α}
    (hd : dir ax ay bx by_ cx cy = 0) (hne : ax ≠ bx)
    (hlo : min ax bx ≤ cx) (hhi : cx ≤ max ax bx) :
    OnClosedSegment ax ay bx by_ cx cy := by
  have hne' : bx - ax ≠ 0 := sub_ne_zero.mpr (Ne.symm hne)
  unfold dir at hd
  refine ⟨(cx - ax) / (bx - ax), ?_, ?_, ?_, ?_⟩
  · rcases lt_or_gt_of_ne hne with hlt | hgt
    · rw [min_eq_left hlt.le] at hlo
      exact div_nonneg (by linarith) (by linarith)
    · rw [max_eq_left hgt.le] at hhi
      exact div_nonneg_of_nonpos (by linarith) (by linarith)
  · rcases lt_or_gt_of_ne hne with hlt | hgt
    · rw [max_eq_right hlt.le] at hhi
      rw [div_le_one (by linarith)]; linarith
    · rw [min_eq_right hgt.le] at hlo
      rw [div_le_one_of_neg (by linarith)]; linarith
  · field_simp
  · field_simp
    linarith

/-- The dual statement for a segment that is not horizontal. -/
theorem onClosedSegment_of_dir_y {ax ay bx by_ cx cy : α}
    (hd : dir ax ay bx by_ cx cy = 0) (hne : ay ≠ by_)
    (hlo : min ay by_ ≤ cy) (hhi : cy ≤ max ay by_) :
    OnClosedSegment ax ay bx by_ cx cy := by
  have hd' : dir ay ax by_ bx cy cx = 0 := by
    unfold dir at hd ⊢; linarith
  obtain ⟨t, h0, h1, hy, hx⟩ := onClosedSegment_of_dir_x hd' hne hlo hhi
  exact ⟨t, h0, h1, hx, hy⟩

/-- Collinear and inside the bounding rectangle means on the segment. -/
theorem onClosedSegment_of_dir_inRect {ax ay bx by_ cx cy : α}
    (hd : dir ax ay bx by_ cx cy = 0) (hr : InRect ax ay bx by_ cx cy) :
    OnClosedSegment ax ay bx by_ cx cy := by
  obtain ⟨hx1, hx2, hy1, hy2⟩ := hr
  by_cases hx : ax = bx
  · by_cases hy : ay = by_
    · subst hx hy
      rw [min_self] at hx1 hy1
      rw [max_self] at hx2 hy2
      have e1 : cx = ax := le_antisymm hx2 hx1
      have e2 : cy = ay := le_antisymm hy2 hy1
      subst e1 e2
      exact onClosedSegment_left _ _ _ _
    · exact onClosedSegment_of_dir_y hd hy hy1 hy2
  · exact onClosedSegment_of_dir_x hd hx hx1 hx2

theorem onClosedSegment_iff (ax ay bx by_ cx cy : α) :
    OnClosedSegment ax ay bx by_ cx cy ↔
      dir ax ay bx by_ cx cy = 0 ∧ InRect ax ay bx by_ cx cy :=
  ⟨fun h => ⟨dir_of_onClosedSegment h, inRect_of_onClosedSegment h⟩,
   fun h => onClosedSegment_of_dir_inRect h.1 h.2⟩

/-! ## Collinear configurations -/

/-- Two spans on a line that are not separated: an end of the second lies in the
first, or the second is not reduced to a point and contains an end of the first. -/
theorem span_cases {a b c d : α}
    (h1 : ¬ max a b < min c d) (h2 : ¬ max c d < min a b) :
    (min a b ≤ c ∧ c ≤ max a b) ∨ (min a b ≤ d ∧ d ≤ max a b) ∨
      (c ≠ d ∧ min c d ≤ a ∧ a ≤ max c d) := by
  rw [not_lt] at h1 h2
  by_cases hc : min a b ≤ c ∧ c ≤ max a b
  · exact Or.inl hc
  by_cases hd : min a b ≤ d ∧ d ≤ max a b
  · exact Or.inr (Or.inl hd)
  refine Or.inr (Or.inr ?_)
  have hab1 : min a b ≤ a := min_le_left a b
  have hab2 : a ≤ max a b := le_max_left a b
  rcases le_total c d with hcd | hcd
  · rw [min_eq_left hcd] at h1 ⊢
    rw [max_eq_right hcd] at h2 ⊢
    rw [not_and_or, not_le, not_le] at hc hd
    rcases hc with hc | hc
    · rcases hd with hd | hd
      · exact absurd (lt_of_lt_of_le hd h2) (lt_irrefl _)
      · exact ⟨ne_of_lt (lt_of_lt_of_le hc (le_trans hab1 (le_trans hab2 hd.le))),
          le_trans hc.le hab1, le_trans hab2 hd.le⟩
    · exact absurd (lt_of_le_of_lt h1 hc) (lt_irrefl _)
  · rw [min_eq_right hcd] at h1 ⊢
    rw [max_eq_left hcd] at h2 ⊢
    rw [not_and_or, not_le, not_le] at hc hd
    rcases hd with hd | hd
    · rcases hc with hc | hc
      · exact absurd (lt_of_lt_of_le hc h2) (lt_irrefl _)
      · exact ⟨ne_of_gt (lt_of_lt_of_le hd (le_trans hab1 (le_trans hab2 hc.le))),
          le_trans hd.le hab1, le_trans hab2 hc.le⟩
    · exact absurd (lt_of_le_of_lt h1 hd) (lt_irrefl _)

/-- When the four orientation values vanish and the bounding rectangles of the two
segments are not separated, an endpoint of one segment is inside the bounding
rectangle of the other. -/
theorem inRect_of_collinear {p1x p1y p2x p2y p3x p3y p4x p4y : α}
    (h1 : dir p3x p3y p4x p4y p1x p1y = 0) (h3 : dir p1x p1y p2x p2y p3x p3y = 0)
    (h4 : dir p1x p1y p2x p2y p4x p4y = 0)
    (hx1 : ¬ max p1x p2x < min p3x p4x) (hx2 : ¬ max p3x p4x < min p1x p2x)
    (hy1 : ¬ max p1y p2y < min p3y p4y) (hy2 : ¬ max p3y p4y < min p1y p2y) :
    InRect p3x p3y p4x p4y p1x p1y ∨ InRect p1x p1y p2x p2y p3x p3y ∨
      InRect p1x p1y p2x p2y p4x p4y := by
  by_cases hx : p1x = p2x
  · by_cases hy : p1y = p2y
    · subst hx hy
      rw [max_self, not_lt] at hx1 hy1
      rw [min_self, not_lt] at hx2 hy2
      exact Or.inl ⟨hx1, hx2, hy1, hy2⟩
    · rcases span_cases hy1 hy2 with h | h | ⟨hne, hlo, hhi⟩
      · exact Or.inr (Or.inl
          (inRect_of_onClosedSegment (onClosedSegment_of_dir_y h3 hy h.1 h.2)))
      · exact Or.inr (Or.inr
          (inRect_of_onClosedSegment (onClosedSegment_of_dir_y h4 hy h.1 h.2)))
      · exact Or.inl
          (inRect_of_onClosedSegment (onClosedSegment_of_dir_y h1 hne hlo hhi))
  · rcases span_cases hx1 hx2 with h | h | ⟨hne, hlo, hhi⟩
    · exact Or.inr (Or.inl
        (inRect_of_onClosedSegment (onClosedSegment_of_dir_x h3 hx h.1 h.2)))
    · exact Or.inr (Or.inr
        (inRect_of_onClosedSegment (onClosedSegment_of_dir_x h4 hx h.1 h.2)))
    · exact Or.inl
        (inRect_of_onClosedSegment (onClosedSegment_of_dir_x h1 hne hlo hhi))

/-- A point inside two rectangles shows that they are not separated. -/
theorem not_separated_of_common {a b c d x : α}
    (h1 : min a b ≤ x) (h2 : x ≤ max a b) (h3 : min c d ≤ x) (h4 : x ≤ max c d) :
    ¬ max a b < min c d ∧ ¬ max c d < min a b :=
  ⟨not_lt.mpr (le_trans h3 h2), not_lt.mpr (le_trans h1 h4)⟩

/-! ## Common points of two segments -/

theorem opposite_of_convex_zero {a b s : α} (h0 : 0 ≤ s) (h1 : s ≤ 1)
    (h : (1 - s) * a + s * b = 0) (ha : a ≠ 0) (hb : b ≠ 0) : Opposite a b := by
  have h1' : 0 ≤ 1 - s := by linarith
  rcases lt_or_gt_of_ne ha with ha' | ha'
  · rcases lt_or_gt_of_ne hb with hb' | hb'
    · exfalso
      have e1 : (1 - s) * a ≤ 0 := mul_nonpos_of_nonneg_of_nonpos h1' ha'.le
      have e2 : s * b ≤ 0 := mul_nonpos_of_nonneg_of_nonpos h0 hb'.le
      have e3 : s * b = 0 := by linarith
      have e4 : (1 - s) * a = 0 := by linarith
      rcases mul_eq_zero.mp e3 with e | e
      · rcases mul_eq_zero.mp e4 with e' | e'
        · linarith
        · exact ha e'
      · exact hb e
    · exact Or.inr ⟨ha', hb'⟩
  · rcases lt_or_gt_of_ne hb with hb' | hb'
    · exact Or.inl ⟨ha', hb'⟩
    · exfalso
      have e1 : 0 ≤ (1 - s) * a := mul_nonneg h1' ha'.le
      have e2 : 0 ≤ s * b := mul_nonneg h0 hb'.le
      have e3 : s * b = 0 := by linarith
      have e4 : (1 - s) * a = 0 := by linarith
      rcases mul_eq_zero.mp e3 with e | e
      · rcases mul_eq_zero.mp e4 with e' | e'
        · linarith
        · exact ha e'
      · exact hb e

theorem ratio_of_opposite {a b : α} (h : Opposite a b) :
    a - b ≠ 0 ∧ 0 ≤ a / (a - b) ∧ a / (a - b) ≤ 1 := by
  rcases h with ⟨ha, hb⟩ | ⟨ha, hb⟩
  · have hpos : 0 < a - b := by linarith
    exact ⟨ne_of_gt hpos, div_nonneg ha.le hpos.le, by rw [div_le_one hpos]; linarith⟩
  · have hneg : a - b < 0 := by linarith
    exact ⟨ne_of_lt hneg, div_nonneg_of_nonpos ha.le hneg.le,
      by rw [div_le_one_of_neg hneg]; linarith⟩

/-- The two differences of orientation values are the same determinant. -/
theorem dir_sub_dir (p1x p1y p2x p2y p3x p3y p4x p4y : α) :
    dir p3x p3y p4x p4y p1x p1y - dir p3x p3y p4x p4y p2x p2y =
      -(dir p1x p1y p2x p2y p3x p3y - dir p1x p1y p2x p2y p4x p4y) := by
  unfold dir; ring

/-- Strictly opposite orientation values on both sides give a common point. -/
theorem segmentsMeet_of_opposite {p1x p1y p2x p2y p3x p3y p4x p4y : α}
    (h12 : Opposite (dir p3x p3y p4x p4y p1x p1y) (dir p3x p3y p4x p4y p2x p2y))
    (h34 : Opposite (dir p1x p1y p2x p2y p3x p3y) (dir p1x p1y p2x p2y p4x p4y)) :
    SegmentsMeet p1x p1y p2x p2y p3x p3y p4x p4y := by
  obtain ⟨hs, hs0, hs1⟩ := ratio_of_opposite h12
  obtain ⟨ht, ht0, ht1⟩ := ratio_of_opposite h34
  refine ⟨p1x + dir p3x p3y p4x p4y p1x p1y /
      (dir p3x p3y p4x p4y p1x p1y - dir p3x p3y p4x p4y p2x p2y) * (p2x - p1x),
    p1y + dir p3x p3y p4x p4y p1x p1y /
      (dir p3x p3y p4x p4y p1x p1y - dir p3x p3y p4x p4y p2x p2y) * (p2y - p1y),
    ⟨_, hs0, hs1, rfl, rfl⟩, ⟨_, ht0, ht1, ?_, ?_⟩⟩
  · unfold dir at hs ht ⊢
    field_simp
    ring
  · unfold dir at hs ht ⊢
    field_simp
    ring

theorem segmentsMeet_of_exactTest {p1x p1y p2x p2y p3x p3y p4x p4y : α}
    (h : ExactTest p1x p1y p2x p2y p3x p3y p4x p4y) :
    SegmentsMeet p1x p1y p2x p2y p3x p3y p4x p4y := by
  rcases h with ⟨h12, h34⟩ | ⟨hd, hr⟩ | ⟨hd, hr⟩ | ⟨hd, hr⟩ | ⟨hd, hr⟩
  · exact segmentsMeet_of_opposite h12 h34
  · exact ⟨p1x, p1y, onClosedSegment_left _ _ _ _, onClosedSegment_of_dir_inRect hd hr⟩
  · exact ⟨p2x, p2y, onClosedSegment_right _ _ _ _, onClosedSegment_of_dir_inRect hd hr⟩
  · exact ⟨p3x, p3y, onClosedSegment_of_dir_inRect hd hr, onClosedSegment_left _ _ _ _⟩
  · exact ⟨p4x, p4y, onClosedSegment_of_dir_inRect hd hr, onClosedSegment_right _ _ _ _⟩

theorem exactTest_of_segmentsMeet {p1x p1y p2x p2y p3x p3y p4x p4y : α}
    (h : SegmentsMeet p1x p1y p2x p2y p3x p3y p4x p4y) :
    ExactTest p1x p1y p2x p2y p3x p3y p4x p4y := by
  obtain ⟨x, y, h12, h34⟩ := h
  have hq12 := dir_of_onClosedSegment h12
  have hq34 := dir_of_onClosedSegment h34
  have hr12 := inRect_of_onClosedSegment h12
  have hr34 := inRect_of_onClosedSegment h34
  obtain ⟨s, hs0, hs1, hxs, hys⟩ := h12
  obtain ⟨t, ht0, ht1, hxt, hyt⟩ := h34
  -- the orientation values of the common point, seen from the other segment
  have e12 : (1 - s) * dir p3x p3y p4x p4y p1x p1y + s * dir p3x p3y p4x p4y p2x p2y = 0 := by
    rw [← dir_affine, ← hxs, ← hys]; exact hq34
  have e34 : (1 - t) * dir p1x p1y p2x p2y p3x p3y + t * dir p1x p1y p2x p2y p4x p4y = 0 := by
    rw [← dir_affine, ← hxt, ← hyt]; exact hq12
  have hD := dir_sub_dir p1x p1y p2x p2y p3x p3y p4x p4y
  -- the fully collinear configuration
  have hcol : dir p3x p3y p4x p4y p1x p1y = 0 → dir p3x p3y p4x p4y p2x p2y = 0 →
      dir p1x p1y p2x p2y p3x p3y = 0 → dir p1x p1y p2x p2y p4x p4y = 0 →
      ExactTest p1x p1y p2x p2y p3x p3y p4x p4y := by
    intro h1 _ h3 h4
    obtain ⟨a1, a2, a3, a4⟩ := hr12
    obtain ⟨b1, b2, b3, b4⟩ := hr34
    have hx := not_separated_of_common a1 a2 b1 b2
    have hy := not_separated_of_common a3 a4 b3 b4
    rcases inRect_of_collinear h1 h3 h4 hx.1 hx.2 hy.1 hy.2 with hr | hr | hr
    · exact Or.inr (Or.inl ⟨h1, hr⟩)
    · exact Or.inr (Or.inr (Or.inr (Or.inl ⟨h3, hr⟩)))
    · exact Or.inr (Or.inr (Or.inr (Or.inr ⟨h4, hr⟩)))
  by_cases h1 : dir p3x p3y p4x p4y p1x p1y = 0
  · rw [h1, mul_zero, zero_add] at e12
    rcases mul_eq_zero.mp e12 with hs | h2
    · -- the common point is p1
      have ex : p1x = x := by rw [hxs, hs]; ring
      have ey : p1y = y := by rw [hys, hs]; ring
      rw [← ex, ← ey] at hr34
      exact Or.inr (Or.inl ⟨h1, hr34⟩)
    · rw [h1, h2, sub_self] at hD
      have h34eq : dir p1x p1y p2x p2y p3x p3y = dir p1x p1y p2x p2y p4x p4y := by
        linarith
      have h3 : dir p1x p1y p2x p2y p3x p3y = 0 := by
        rw [← h34eq] at e34; linarith
      exact hcol h1 h2 h3 (h34eq ▸ h3)
  by_cases h2 : dir p3x p3y p4x p4y p2x p2y = 0
  · rw [h2, mul_zero, add_zero] at e12
    rcases mul_eq_zero.mp e12 with hs | h1'
    · -- the common point is p2
      have hs' : s = 1 := by linarith
      have ex : p2x = x := by rw [hxs, hs']; ring
      have ey : p2y = y := by rw [hys, hs']; ring
      rw [← ex, ← ey] at hr34
      exact Or.inr (Or.inr (Or.inl ⟨h2, hr34⟩))
    · exact absurd h1' h1
  by_cases h3 : dir p1x p1y p2x p2y p3x p3y = 0
  · rw [h3, mul_zero, zero_add] at e34
    rcases mul_eq_zero.mp e34 with ht | h4
    · -- the common point is p3
      have ex : p3x = x := by rw [hxt, ht]; ring
      have ey : p3y = y := by rw [hyt, ht]; ring
      rw [← ex, ← ey] at hr12
      exact Or.inr (Or.inr (Or.inr (Or.inl ⟨h3, hr12⟩)))
    · exfalso
      rw [h3, h4, sub_self, neg_zero] at hD
      have h12eq : dir p3x p3y p4x p4y p1x p1y = dir p3x p3y p4x p4y p2x p2y := by
        linarith
      rw [← h12eq] at e12
      exact h1 (by linarith)
  by_cases h4 : dir p1x p1y p2x p2y p4x p4y = 0
  · rw [h4, mul_zero, add_zero] at e34
    rcases mul_eq_zero.mp e34 with ht | h3'
    · -- the common point is p4
      have ht' : t = 1 := by linarith
      have ex : p4x = x := by rw [hxt, ht']; ring
      have ey : p4y = y := by rw [hyt, ht']; ring
      rw [← ex, ← ey] at hr12
      exact Or.inr (Or.inr (Or.inr (Or.inr ⟨h4, hr12⟩)))
    · exact absurd h3' h3
  exact Or.inl ⟨opposite_of_convex_zero hs0 hs1 e12 h1 h2,
    opposite_of_convex_zero ht0 ht1 e34 h3 h4⟩

/-- The exact orientation test decides whether the closed segments meet. -/
theorem segmentsMeet_iff_exactTest (p1x p1y p2x p2y p3x p3y p4x p4y : α) :
    SegmentsMeet p1x p1y p2x p2y p3x p3y p4x p4y ↔
      ExactTest p1x p1y p2x p2y p3x p3y p4x p4y :=
  ⟨exactTest_of_segmentsMeet, segmentsMeet_of_exactTest⟩

/-! ## The tolerance -/

theorem Decisive.abs_lt_iff {d : α} (h : Decisive d) : |d| < EPS ↔ d = 0 := by
  constructor
  · intro hlt
    rcases h with h | h
    · exact h
    · exact absurd (lt_trans h hlt) (lt_irrefl _)
  · intro h0
    rw [h0, abs_zero]
    exact EPS_pos

theorem Decisive.gt_iff {d : α} (h : Decisive d) : d > EPS ↔ 0 < d := by
  constructor
  · intro hgt
    exact lt_trans EPS_pos hgt
  · intro hpos
    rcases h with h | h
    · exact absurd hpos (by rw [h]; exact lt_irrefl _)
    · rwa [abs_of_pos hpos] at h

theorem Decisive.lt_neg_iff {d : α} (h : Decisive d) : d < -EPS ↔ d < 0 := by
  constructor
  · intro hlt
    have hpos : (0 : α) < EPS := EPS_pos
    linarith
  · intro hneg
    rcases h with h | h
    · exact absurd hneg (by rw [h]; exact lt_irrefl _)
    · rw [abs_of_neg hneg] at h
      linarith

/-- On the boundary of the tolerance band no test fires: with the four orientation
values equal to `-EPS, EPS, EPS, -EPS` the comparisons `d > EPS`, `d < -EPS` and
`|d| < EPS` are all false and the result is 0, although the segments cross at
`(1/2, 0)`. -/
theorem segments_intersect_on_tolerance_boundary :
    segments_intersect (0 : α) 0 1 0 (1 / 2) EPS (1 / 2) (-EPS) = 0 ∧
      SegmentsMeet (0 : α) 0 1 0 (1 / 2) EPS (1 / 2) (-EPS) := by
  constructor
  · norm_num [segments_intersect, dir, EPS, onSeg, abs_lt]
  · exact ⟨1 / 2, 0, ⟨1 / 2, by norm_num, by norm_num, by norm_num, by norm_num⟩,
      ⟨1 / 2, by norm_num, by norm_num, by norm_num, by ring⟩⟩

/-- When the four orientation values are decisive, the code computes the exact test. -/
theorem segments_intersect_eq_one_iff_exactTest {p1x p1y p2x p2y p3x p3y p4x p4y : α}
    (h1 : Decisive (dir p3x p3y p4x p4y p1x p1y))
    (h2 : Decisive (dir p3x p3y p4x p4y p2x p2y))
    (h3 : Decisive (dir p1x p1y p2x p2y p3x p3y))
    (h4 : Decisive (dir p1x p1y p2x p2y p4x p4y)) :
    segments_intersect p1x p1y p2x p2y p3x p3y p4x p4y = 1 ↔
      ExactTest p1x p1y p2x p2y p3x p3y p4x p4y := by
  rw [segments_intersect_eq_one_iff, ExactTest, Opposite, Opposite,
    h1.abs_lt_iff, h2.abs_lt_iff, h3.abs_lt_iff, h4.abs_lt_iff,
    h1.gt_iff, h2.gt_iff, h3.gt_iff, h4.gt_iff,
    h1.lt_neg_iff, h2.lt_neg_iff, h3.lt_neg_iff, h4.lt_neg_iff]

theorem int_eq_of_one_iff {a b : Int} (ha : a = 0 ∨ a = 1) (hb : b = 0 ∨ b = 1)
    (h : a = 1 ↔ b = 1) : a = b := by
  rcases ha with ha | ha <;> rcases hb with hb | hb
  · rw [ha, hb]
  · exact absurd (h.mpr hb) (by rw [ha]; decide)
  · exact absurd (h.mp ha) (by rw [hb]; decide)
  · rw [ha, hb]

theorem bbox_overlap_zero_or_one (axmin axmax aymin aymax bxmin bxmax bymin bymax : α) :
    bbox_overlap axmin axmax aymin aymax bxmin bxmax bymin bymax = 0 ∨
      bbox_overlap axmin axmax aymin aymax bxmin bxmax bymin bymax = 1 := by
  unfold bbox_overlap
  split_ifs
  · exact Or.inl rfl
  · exact Or.inr rfl

theorem segments_intersect_eq_zero_iff (p1x p1y p2x p2y p3x p3y p4x p4y : α) :
    segments_intersect p1x p1y p2x p2y p3x p3y p4x p4y = 0 ↔
      ¬ segments_intersect p1x p1y p2x p2y p3x p3y p4x p4y = 1 := by
  rcases segments_intersect_zero_or_one p1x p1y p2x p2y p3x p3y p4x p4y with h | h
  · rw [h]; simp
  · rw [h]; simp

/-! ## NaN arguments -/

theorem Dbl.lt_num (a b : α) : Dbl.lt (Dbl.num a) (Dbl.num b) = decide (a < b) := rfl

/-- A comparison that holds after NaN has been substituted held before. -/
theorem Dbl.lt_of_withNaN {f g : Bool} {a b : α}
    (h : Dbl.lt (IEEE.withNaN f a) (IEEE.withNaN g b) = true) :
    Dbl.lt (Dbl.num a) (Dbl.num b) = true := by
  cases f <;> cases g <;> simp_all [IEEE.withNaN, Dbl.lt]

/-- On numbers the NaN-aware body is the body over the ordered field. -/
theorem IEEE.bbox_overlap_num (axmin axmax aymin aymax bxmin bxmax bymin bymax : α) :
    IEEE.bbox_overlap (Dbl.num axmin) (Dbl.num axmax) (Dbl.num aymin) (Dbl.num aymax)
        (Dbl.num bxmin) (Dbl.num bxmax) (Dbl.num bymin) (Dbl.num bymax) =
      Geometry.bbox_overlap axmin axmax aymin aymax bxmin bxmax bymin bymax := by
  simp only [IEEE.bbox_overlap, Geometry.bbox_overlap, Dbl.lt_num, Bool.or_eq_true,
    decide_eq_true_eq, or_assoc]

theorem IEEE.bbox_overlap_nan_eq_one_iff (a1 a2 a3 a4 b1 b2 b3 b4 : Dbl α) :
    IEEE.bbox_overlap a1 a2 a3 a4 b1 b2 b3 b4 = 1 ↔
      Dbl.lt a2 b1 = false ∧ Dbl.lt b2 a1 = false ∧ Dbl.lt a4 b3 = false ∧
        Dbl.lt b4 a3 = false := by
  unfold IEEE.bbox_overlap
  split_ifs with h
  · simp only [Bool.or_eq_true] at h
    constructor
    · intro h01; exact absurd h01 (by decide)
    · rintro ⟨h1, h2, h3, h4⟩
      rw [h1, h2, h3, h4] at h
      simp at h
  · simp only [Bool.or_eq_true, not_or, Bool.not_eq_true] at h
    exact iff_of_true rfl ⟨h.1.1.1, h.1.1.2, h.1.2, h.2⟩

theorem IEEE.bbox_overlap_withNaN_of_one {a1 a2 a3 a4 b1 b2 b3 b4 : α}
    (f1 f2 f3 f4 g1 g2 g3 g4 : Bool)
    (h : IEEE.bbox_overlap (Dbl.num a1) (Dbl.num a2) (Dbl.num a3) (Dbl.num a4)
      (Dbl.num b1) (Dbl.num b2) (Dbl.num b3) (Dbl.num b4) = 1) :
    IEEE.bbox_overlap (IEEE.withNaN f1 a1) (IEEE.withNaN f2 a2) (IEEE.withNaN f3 a3)
      (IEEE.withNaN f4 a4) (IEEE.withNaN g1 b1) (IEEE.withNaN g2 b2) (IEEE.withNaN g3 b3)
      (IEEE.withNaN g4 b4) = 1 := by
  rw [IEEE.bbox_overlap_nan_eq_one_iff] at h ⊢
  obtain ⟨h1, h2, h3, h4⟩ := h
  have key : ∀ (f g : Bool) (a b : α), Dbl.lt (Dbl.num a) (Dbl.num b) = false →
      Dbl.lt (IEEE.withNaN f a) (IEEE.withNaN g b) = false := by
    intro f g a b hab
    by_contra hne
    rw [Bool.not_eq_false] at hne
    rw [Dbl.lt_of_withNaN hne] at hab
    exact absurd hab (by decide)
  exact ⟨key _ _ _ _ h1, key _ _ _ _ h2, key _ _ _ _ h3, key _ _ _ _ h4⟩

/-! ## The claims about `segments_intersect` and `bbox_overlap` -/

/-- C1: with `eps` the value of the constant `EPS = 1e-9` of the code (the double
`4835703278458517 / 2^82`) and `d1 … d4` the orientation values computed by the
formula of `dir`, `segments_intersect` returns 1 exactly when the proper crossing
condition holds or one of the four endpoints has `|d_i| < eps` and is inside the
inclusive bounding rectangle of the other segment; in every other case it
returns 0. -/
theorem C1_segments_intersect_formula
    (p1x p1y p2x p2y p3x p3y p4x p4y eps d1 d2 d3 d4 : α)
    (heps : eps = 4835703278458517 / 2 ^ 82)
    (hd1 : d1 = (p4x - p3x) * (p1y - p3y) - (p4y - p3y) * (p1x - p3x))
    (hd2 : d2 = (p4x - p3x) * (p2y - p3y) - (p4y - p3y) * (p2x - p3x))
    (hd3 : d3 = (p2x - p1x) * (p3y - p1y) - (p2y - p1y) * (p3x - p1x))
    (hd4 : d4 = (p2x - p1x) * (p4y - p1y) - (p2y - p1y) * (p4x - p1x)) :
    (segments_intersect p1x p1y p2x p2y p3x p3y p4x p4y = 1 ↔
      ((((d1 > eps ∧ d2 < -eps) ∨ (d1 < -eps ∧ d2 > eps)) ∧
          ((d3 > eps ∧ d4 < -eps) ∨ (d3 < -eps ∧ d4 > eps))) ∨
        (|d1| < eps ∧ min p3x p4x ≤ p1x ∧ p1x ≤ max p3x p4x ∧
          min p3y p4y ≤ p1y ∧ p1y ≤ max p3y p4y) ∨
        (|d2| < eps ∧ min p3x p4x ≤ p2x ∧ p2x ≤ max p3x p4x ∧
          min p3y p4y ≤ p2y ∧ p2y ≤ max p3y p4y) ∨
        (|d3| < eps ∧ min p1x p2x ≤ p3x ∧ p3x ≤ max p1x p2x ∧
          min p1y p2y ≤ p3y ∧ p3y ≤ max p1y p2y) ∨
        (|d4| < eps ∧ min p1x p2x ≤ p4x ∧ p4x ≤ max p1x p2x ∧
          min p1y p2y ≤ p4y ∧ p4y ≤ max p1y p2y))) ∧
    (segments_intersect p1x p1y p2x p2y p3x p3y p4x p4y = 0 ↔
      ¬ ((((d1 > eps ∧ d2 < -eps) ∨ (d1 < -eps ∧ d2 > eps)) ∧
          ((d3 > eps ∧ d4 < -eps) ∨ (d3 < -eps ∧ d4 > eps))) ∨
        (|d1| < eps ∧ min p3x p4x ≤ p1x ∧ p1x ≤ max p3x p4x ∧
          min p3y p4y ≤ p1y ∧ p1y ≤ max p3y p4y) ∨
        (|d2| < eps ∧ min p3x p4x ≤ p2x ∧ p2x ≤ max p3x p4x ∧
          min p3y p4y ≤ p2y ∧ p2y ≤ max p3y p4y) ∨
        (|d3| < eps ∧ min p1x p2x ≤ p3x ∧ p3x ≤ max p1x p2x ∧
          min p1y p2y ≤ p3y ∧ p3y ≤ max p1y p2y) ∨
        (|d4| < eps ∧ min p1x p2x ≤ p4x ∧ p4x ≤ max p1x p2x ∧
          min p1y p2y ≤ p4y ∧ p4y ≤ max p1y p2y))) := by
  have he : eps = (EPS : α) := heps
  have e1 : d1 = dir p3x p3y p4x p4y p1x p1y := hd1
  have e2 : d2 = dir p3x p3y p4x p4y p2x p2y := hd2
  have e3 : d3 = dir p1x p1y p2x p2y p3x p3y := hd3
  have e4 : d4 = dir p1x p1y p2x p2y p4x p4y := hd4
  rw [he, e1, e2, e3, e4]
  have key := segments_intersect_eq_one_iff p1x p1y p2x p2y p3x p3y p4x p4y
  unfold InRect at key
  refine ⟨key, ?_⟩
  rw [segments_intersect_eq_zero_iff, key]

/-- C1, at the crossing `(0,0)-(2,2)` against `(0,2)-(2,0)`: the orientation values
are `-4, 4, 4, -4` and the proper crossing condition gives 1. -/
theorem C1_segments_intersect_formula_witness :
    ((4835703278458517 : ℚ) / 2 ^ 82 = 4835703278458517 / 2 ^ 82 ∧
      (-4 : ℚ) = (2 - 0) * (0 - 2) - (0 - 2) * (0 - 0) ∧
      (4 : ℚ) = (2 - 0) * (2 - 2) - (0 - 2) * (2 - 0) ∧
      (4 : ℚ) = (2 - 0) * (2 - 0) - (2 - 0) * (0 - 0) ∧
      (-4 : ℚ) = (2 - 0) * (0 - 0) - (2 - 0) * (2 - 0)) ∧
    segments_intersect (0 : ℚ) 0 2 2 0 2 2 0 = 1 :=
  ⟨⟨rfl, by norm_num, by norm_num, by norm_num, by norm_num⟩,
    (C1_segments_intersect_formula (0 : ℚ) 0 2 2 0 2 2 0 (4835703278458517 / 2 ^ 82) (-4) 4 4 (-4)
      rfl (by norm_num) (by norm_num) (by norm_num) (by norm_num)).1.mpr
      (Or.inl (by norm_num))⟩

/-- C2 (as stated, refuted): the diagonal `(0,0)-(1,1)` and the vertical segment
from `(1/2, 1/2 + 2^-34)` to `(1/2, 2)` have no common point, yet the code returns 1
(the lower end is within the tolerance of the diagonal); the segment `(0,0)-(1,0)`
is crossed at `(1/2, 0)` by the segment from `(1/2, 2^-34)` to `(1/2, -1)`, yet the
code returns 0. -/
theorem C2_tolerance_counterexample :
    (segments_intersect (0 : ℝ) 0 1 1 (1 / 2) (1 / 2 + 1 / 17179869184) (1 / 2) 2 = 1 ∧
      ¬ SegmentsMeet (0 : ℝ) 0 1 1 (1 / 2) (1 / 2 + 1 / 17179869184) (1 / 2) 2) ∧
    (segments_intersect (0 : ℝ) 0 1 0 (1 / 2) (1 / 17179869184) (1 / 2) (-1) = 0 ∧
      SegmentsMeet (0 : ℝ) 0 1 0 (1 / 2) (1 / 17179869184) (1 / 2) (-1)) := by
  refine ⟨⟨?_, ?_⟩, ?_, ?_⟩
  · norm_num [segments_intersect, dir, EPS, onSeg, abs_lt]
  · rintro ⟨x, y, ⟨s, -, -, hx, hy⟩, ⟨t, ht0, -, hx', hy'⟩⟩
    have h17 : (0 : ℝ) < 1 / 17179869184 := by norm_num
    nlinarith
  · norm_num [segments_intersect, dir, EPS, onSeg, abs_lt]
  · exact ⟨1 / 2, 0, ⟨1 / 2, by norm_num, by norm_num, by norm_num, by norm_num⟩,
      ⟨(1 / 17179869184) / (1 + 1 / 17179869184), by norm_num, by norm_num,
        by norm_num, by norm_num⟩⟩

/-- C2 (amended): when each of the four orientation values is exactly zero or
exceeds `EPS` (the constant of the code, the double written `1e-9`) in absolute
value, `segments_intersect` returns 1 if and only if the
closed segments `p1–p2` and `p3–p4` have a point in common, and 0 otherwise. -/
theorem C2_segments_intersect_iff_meet_of_decisive
    (p1x p1y p2x p2y p3x p3y p4x p4y : α)
    (h1 : dir p3x p3y p4x p4y p1x p1y = 0 ∨ EPS < |dir p3x p3y p4x p4y p1x p1y|)
    (h2 : dir p3x p3y p4x p4y p2x p2y = 0 ∨ EPS < |dir p3x p3y p4x p4y p2x p2y|)
    (h3 : dir p1x p1y p2x p2y p3x p3y = 0 ∨ EPS < |dir p1x p1y p2x p2y p3x p3y|)
    (h4 : dir p1x p1y p2x p2y p4x p4y = 0 ∨ EPS < |dir p1x p1y p2x p2y p4x p4y|) :
    (segments_intersect p1x p1y p2x p2y p3x p3y p4x p4y = 1 ↔
      SegmentsMeet p1x p1y p2x p2y p3x p3y p4x p4y) ∧
    (segments_intersect p1x p1y p2x p2y p3x p3y p4x p4y = 0 ↔
      ¬ SegmentsMeet p1x p1y p2x p2y p3x p3y p4x p4y) := by
  have key : segments_intersect p1x p1y p2x p2y p3x p3y p4x p4y = 1 ↔
      SegmentsMeet p1x p1y p2x p2y p3x p3y p4x p4y := by
    rw [segmentsMeet_iff_exactTest]
    exact segments_intersect_eq_one_iff_exactTest h1 h2 h3 h4
  refine ⟨key, ?_⟩
  rw [segments_intersect_eq_zero_iff, key]

/-- C2 (amended), at the collinear segments `(0,0)-(4,0)` and `(2,0)-(6,0)`: the
four orientation values are zero and the common point `(2,0)` is reported. -/
theorem C2_segments_intersect_iff_meet_of_decisive_witness :
    (dir (2 : ℚ) 0 6 0 0 0 = 0 ∨ EPS < |dir (2 : ℚ) 0 6 0 0 0|) ∧
    (dir (2 : ℚ) 0 6 0 4 0 = 0 ∨ EPS < |dir (2 : ℚ) 0 6 0 4 0|) ∧
    (dir (0 : ℚ) 0 4 0 2 0 = 0 ∨ EPS < |dir (0 : ℚ) 0 4 0 2 0|) ∧
    (dir (0 : ℚ) 0 4 0 6 0 = 0 ∨ EPS < |dir (0 : ℚ) 0 4 0 6 0|) ∧
    (segments_intersect (0 : ℚ) 0 4 0 2 0 6 0 = 1 ↔ SegmentsMeet (0 : ℚ) 0 4 0 2 0 6 0) :=
  ⟨Or.inl (by norm_num [dir]), Or.inl (by norm_num [dir]), Or.inl (by norm_num [dir]),
    Or.inl (by norm_num [dir]),
    (C2_segments_intersect_iff_meet_of_decisive (0 : ℚ) 0 4 0 2 0 6 0
      (Or.inl (by norm_num [dir])) (Or.inl (by norm_num [dir]))
      (Or.inl (by norm_num [dir])) (Or.inl (by norm_num [dir]))).1⟩

/-- C3: exchanging the two segments does not change the result of
`segments_intersect`. -/
theorem C3_segments_intersect_symm (p1x p1y p2x p2y p3x p3y p4x p4y : α) :
    segments_intersect p1x p1y p2x p2y p3x p3y p4x p4y =
      segments_intersect p3x p3y p4x p4y p1x p1y p2x p2y := by
  apply int_eq_of_one_iff (segments_intersect_zero_or_one _ _ _ _ _ _ _ _)
    (segments_intersect_zero_or_one _ _ _ _ _ _ _ _)
  rw [segments_intersect_eq_one_iff, segments_intersect_eq_one_iff]
  constructor
  · rintro (⟨h12, h34⟩ | h | h | h | h)
    · exact Or.inl ⟨h34, h12⟩
    · exact Or.inr (Or.inr (Or.inr (Or.inl h)))
    · exact Or.inr (Or.inr (Or.inr (Or.inr h)))
    · exact Or.inr (Or.inl h)
    · exact Or.inr (Or.inr (Or.inl h))
  · rintro (⟨h12, h34⟩ | h | h | h | h)
    · exact Or.inl ⟨h34, h12⟩
    · exact Or.inr (Or.inr (Or.inr (Or.inl h)))
    · exact Or.inr (Or.inr (Or.inr (Or.inr h)))
    · exact Or.inr (Or.inl h)
    · exact Or.inr (Or.inr (Or.inl h))

/-- C4: for well-formed boxes, `bbox_overlap` returns 1 exactly when some point is
inside both closed rectangles and 0 otherwise; it returns 0 on
`0,1,0,1` against `2,3,0,1` and 1 on `0,10,0,10` against `3,4,3,4`. -/
theorem C4_bbox_overlap_iff_common_point
    (axmin axmax aymin aymax bxmin bxmax bymin bymax : α)
    (hax : axmin ≤ axmax) (hay : aymin ≤ aymax) (hbx : bxmin ≤ bxmax) (hby : bymin ≤ bymax) :
    (bbox_overlap axmin axmax aymin aymax bxmin bxmax bymin bymax = 1 ↔
      ∃ x y : α, axmin ≤ x ∧ x ≤ axmax ∧ aymin ≤ y ∧ y ≤ aymax ∧
        bxmin ≤ x ∧ x ≤ bxmax ∧ bymin ≤ y ∧ y ≤ bymax) ∧
    (bbox_overlap axmin axmax aymin aymax bxmin bxmax bymin bymax = 0 ↔
      ¬ ∃ x y : α, axmin ≤ x ∧ x ≤ axmax ∧ aymin ≤ y ∧ y ≤ aymax ∧
        bxmin ≤ x ∧ x ≤ bxmax ∧ bymin ≤ y ∧ y ≤ bymax) ∧
    bbox_overlap (0 : α) 1 0 1 2 3 0 1 = 0 ∧
    bbox_overlap (0 : α) 10 0 10 3 4 3 4 = 1 := by
  have key : ¬ (axmax < bxmin ∨ bxmax < axmin ∨ aymax < bymin ∨ bymax < aymin) ↔
      ∃ x y : α, axmin ≤ x ∧ x ≤ axmax ∧ aymin ≤ y ∧ y ≤ aymax ∧
        bxmin ≤ x ∧ x ≤ bxmax ∧ bymin ≤ y ∧ y ≤ bymax := by
    constructor
    · intro h
      simp only [not_or, not_lt] at h
      obtain ⟨h1, h2, h3, h4⟩ := h
      exact ⟨max axmin bxmin, max aymin bymin, le_max_left _ _, max_le hax h1,
        le_max_left _ _, max_le hay h3, le_max_right _ _, max_le h2 hbx,
        le_max_right _ _, max_le h4 hby⟩
    · rintro ⟨x, y, a1, a2, a3, a4, b1, b2, b3, b4⟩
      simp only [not_or, not_lt]
      exact ⟨le_trans b1 a2, le_trans a1 b2, le_trans b3 a4, le_trans a3 b4⟩
  refine ⟨?_, ?_, ?_, ?_⟩
  · rw [bbox_overlap_eq_one_iff, key]
  · rw [bbox_overlap_eq_zero_iff, ← key, not_not]
  · norm_num [bbox_overlap]
  · norm_num [bbox_overlap]

/-- C4, at the boxes `0,1,0,1` and `1,2,0,1`: both are well formed and the point
`(1, 0)` is inside both. -/
theorem C4_bbox_overlap_iff_common_point_witness :
    ((0 : ℚ) ≤ 1 ∧ (0 : ℚ) ≤ 1 ∧ (1 : ℚ) ≤ 2 ∧ (0 : ℚ) ≤ 1) ∧
    bbox_overlap (0 : ℚ) 1 0 1 1 2 0 1 = 1 :=
  ⟨⟨by norm_num, by norm_num, by norm_num, by norm_num⟩,
    (C4_bbox_overlap_iff_common_point (0 : ℚ) 1 0 1 1 2 0 1
      (by norm_num) (by norm_num) (by norm_num) (by norm_num)).1.mpr
      ⟨1, 0, by norm_num, by norm_num, by norm_num, by norm_num, by norm_num,
        by norm_num, by norm_num, by norm_num⟩⟩

/-- C5: for all arguments, ordered or not, `bbox_overlap` returns 1 exactly when
none of the four strict comparisons holds and 0 exactly when one of them holds;
the boxes `1,0,1,0` and `0,1,0,1`, the first of which has `xmin > xmax`, are
evaluated like any other (here to 1). -/
theorem C5_bbox_overlap_formula
    (axmin axmax aymin aymax bxmin bxmax bymin bymax : α) :
    (bbox_overlap axmin axmax aymin aymax bxmin bxmax bymin bymax = 1 ↔
      ¬ axmax < bxmin ∧ ¬ bxmax < axmin ∧ ¬ aymax < bymin ∧ ¬ bymax < aymin) ∧
    (bbox_overlap axmin axmax aymin aymax bxmin bxmax bymin bymax = 0 ↔
      axmax < bxmin ∨ bxmax < axmin ∨ aymax < bymin ∨ bymax < aymin) ∧
    bbox_overlap (1 : α) 0 1 0 0 1 0 1 = 1 := by
  refine ⟨?_, bbox_overlap_eq_zero_iff _ _ _ _ _ _ _ _, ?_⟩
  · rw [bbox_overlap_eq_one_iff]
    simp only [not_or]
  · norm_num [bbox_overlap]

/-- C6: well-formed boxes that touch along a vertical edge (`axmax = bxmin`, with
intersecting y-ranges) or along a horizontal edge (`aymax = bymin`, with
intersecting x-ranges) overlap; `bbox_overlap(0,1,0,1, 1,2,0,1) = 1`. -/
theorem C6_bbox_overlap_edge_touch
    (axmin axmax aymin aymax bxmin bxmax bymin bymax : α)
    (hax : axmin ≤ axmax) (hay : aymin ≤ aymax) (hbx : bxmin ≤ bxmax) (hby : bymin ≤ bymax) :
    (axmax = bxmin → aymin ≤ bymax → bymin ≤ aymax →
      bbox_overlap axmin axmax aymin aymax bxmin bxmax bymin bymax = 1) ∧
    (aymax = bymin → axmin ≤ bxmax → bxmin ≤ axmax →
      bbox_overlap axmin axmax aymin aymax bxmin bxmax bymin bymax = 1) ∧
    bbox_overlap (0 : α) 1 0 1 1 2 0 1 = 1 := by
  refine ⟨?_, ?_, ?_⟩
  · intro hx h1 h2
    rw [bbox_overlap_eq_one_iff]
    simp only [not_or, not_lt]
    exact ⟨hx.ge, le_trans hax (hx ▸ hbx), h2, h1⟩
  · intro hy h1 h2
    rw [bbox_overlap_eq_one_iff]
    simp only [not_or, not_lt]
    exact ⟨h2, h1, hy.ge, le_trans hay (hy ▸ hby)⟩
  · norm_num [bbox_overlap]

/-- C6, at `0,1,0,1` against `1,2,0,1` (vertical edge `x = 1`) and at `0,1,0,1`
against `0,1,1,2` (horizontal edge `y = 1`). -/
theorem C6_bbox_overlap_edge_touch_witness :
    (((0 : ℚ) ≤ 1 ∧ (0 : ℚ) ≤ 1 ∧ (1 : ℚ) ≤ 2 ∧ (0 : ℚ) ≤ 1) ∧
      ((1 : ℚ) = 1 ∧ (0 : ℚ) ≤ 1 ∧ (0 : ℚ) ≤ 1) ∧
      bbox_overlap (0 : ℚ) 1 0 1 1 2 0 1 = 1) ∧
    (((0 : ℚ) ≤ 1 ∧ (0 : ℚ) ≤ 1 ∧ (0 : ℚ) ≤ 1 ∧ (1 : ℚ) ≤ 2) ∧
      ((1 : ℚ) = 1 ∧ (0 : ℚ) ≤ 1 ∧ (0 : ℚ) ≤ 1) ∧
      bbox_overlap (0 : ℚ) 1 0 1 0 1 1 2 = 1) :=
  ⟨⟨⟨by norm_num, by norm_num, by norm_num, by norm_num⟩,
      ⟨rfl, by norm_num, by norm_num⟩,
      (C6_bbox_overlap_edge_touch (0 : ℚ) 1 0 1 1 2 0 1
        (by norm_num) (by norm_num) (by norm_num) (by norm_num)).1
        rfl (by norm_num) (by norm_num)⟩,
    ⟨⟨by norm_num, by norm_num, by norm_num, by norm_num⟩,
      ⟨rfl, by norm_num, by norm_num⟩,
      (C6_bbox_overlap_edge_touch (0 : ℚ) 1 0 1 0 1 1 2
        (by norm_num) (by norm_num) (by norm_num) (by norm_num)).2.1
        rfl (by norm_num) (by norm_num)⟩⟩

/-- C7: when an endpoint of one segment lies on the other closed segment, and in
particular when the two segments share an endpoint, `segments_intersect`
returns 1; `segments_intersect((0,0),(2,2),(2,2),(4,0)) = 1`. -/
theorem C7_touching_detected (p1x p1y p2x p2y p3x p3y p4x p4y : α) :
    ((OnClosedSegment p3x p3y p4x p4y p1x p1y ∨ OnClosedSegment p3x p3y p4x p4y p2x p2y ∨
        OnClosedSegment p1x p1y p2x p2y p3x p3y ∨ OnClosedSegment p1x p1y p2x p2y p4x p4y) →
      segments_intersect p1x p1y p2x p2y p3x p3y p4x p4y = 1) ∧
    (((p1x = p3x ∧ p1y = p3y) ∨ (p1x = p4x ∧ p1y = p4y) ∨
        (p2x = p3x ∧ p2y = p3y) ∨ (p2x = p4x ∧ p2y = p4y)) →
      segments_intersect p1x p1y p2x p2y p3x p3y p4x p4y = 1) ∧
    segments_intersect (0 : α) 0 2 2 2 2 4 0 = 1 := by
  have small : ∀ {d : α}, d = 0 → |d| < EPS := by
    intro d hd
    rw [hd, abs_zero]
    exact EPS_pos
  have touch : (OnClosedSegment p3x p3y p4x p4y p1x p1y ∨
      OnClosedSegment p3x p3y p4x p4y p2x p2y ∨
      OnClosedSegment p1x p1y p2x p2y p3x p3y ∨ OnClosedSegment p1x p1y p2x p2y p4x p4y) →
      segments_intersect p1x p1y p2x p2y p3x p3y p4x p4y = 1 := by
    intro h
    rw [segments_intersect_eq_one_iff]
    rcases h with h | h | h | h
    · exact Or.inr (Or.inl
        ⟨small (dir_of_onClosedSegment h), inRect_of_onClosedSegment h⟩)
    · exact Or.inr (Or.inr (Or.inl
        ⟨small (dir_of_onClosedSegment h), inRect_of_onClosedSegment h⟩))
    · exact Or.inr (Or.inr (Or.inr (Or.inl
        ⟨small (dir_of_onClosedSegment h), inRect_of_onClosedSegment h⟩)))
    · exact Or.inr (Or.inr (Or.inr (Or.inr
        ⟨small (dir_of_onClosedSegment h), inRect_of_onClosedSegment h⟩)))
  refine ⟨touch, ?_, ?_⟩
  · rintro (⟨hx, hy⟩ | ⟨hx, hy⟩ | ⟨hx, hy⟩ | ⟨hx, hy⟩)
    · exact touch (Or.inl (by rw [hx, hy]; exact onClosedSegment_left p3x p3y p4x p4y))
    · exact touch (Or.inl (by rw [hx, hy]; exact onClosedSegment_right p3x p3y p4x p4y))
    · exact touch (Or.inr (Or.inl
        (by rw [hx, hy]; exact onClosedSegment_left p3x p3y p4x p4y)))
    · exact touch (Or.inr (Or.inl
        (by rw [hx, hy]; exact onClosedSegment_right p3x p3y p4x p4y)))
  · norm_num [segments_intersect, dir, EPS, onSeg, abs_lt]

/-- C7, at `(0,0)-(2,2)` against `(2,2)-(4,0)`: the endpoint `p3 = (2,2)` is the point
of parameter 1 of the first segment, and it is the shared endpoint `p2`. -/
theorem C7_touching_detected_witness :
    (OnClosedSegment (0 : ℚ) 0 2 2 2 2 ∧ segments_intersect (0 : ℚ) 0 2 2 2 2 4 0 = 1) ∧
    (((2 : ℚ) = 2 ∧ (2 : ℚ) = 2) ∧ segments_intersect (0 : ℚ) 0 2 2 2 2 4 0 = 1) :=
  ⟨⟨onClosedSegment_right 0 0 2 2,
      (C7_touching_detected (0 : ℚ) 0 2 2 2 2 4 0).1
        (Or.inr (Or.inr (Or.inl (onClosedSegment_right 0 0 2 2))))⟩,
    ⟨⟨rfl, rfl⟩,
      (C7_touching_detected (0 : ℚ) 0 2 2 2 2 4 0).2.1
        (Or.inr (Or.inr (Or.inl ⟨rfl, rfl⟩)))⟩⟩

/-- C8: when the four orientation values are exactly zero, `segments_intersect`
equals `bbox_overlap` applied to the bounding rectangles of the two segments;
`(0,0),(4,0),(2,0),(6,0)` gives 1 and `(0,0),(1,0),(2,0),(3,0)` gives 0. -/
theorem C8_collinear_iff_spans_overlap (p1x p1y p2x p2y p3x p3y p4x p4y : α)
    (h1 : dir p3x p3y p4x p4y p1x p1y = 0) (h2 : dir p3x p3y p4x p4y p2x p2y = 0)
    (h3 : dir p1x p1y p2x p2y p3x p3y = 0) (h4 : dir p1x p1y p2x p2y p4x p4y = 0) :
    segments_intersect p1x p1y p2x p2y p3x p3y p4x p4y =
        bbox_overlap (min p1x p2x) (max p1x p2x) (min p1y p2y) (max p1y p2y)
          (min p3x p4x) (max p3x p4x) (min p3y p4y) (max p3y p4y) ∧
    segments_intersect (0 : α) 0 4 0 2 0 6 0 = 1 ∧
    segments_intersect (0 : α) 0 1 0 2 0 3 0 = 0 := by
  refine ⟨?_, ?_, ?_⟩
  · apply int_eq_of_one_iff (segments_intersect_zero_or_one _ _ _ _ _ _ _ _)
      (bbox_overlap_zero_or_one _ _ _ _ _ _ _ _)
    have hpos : (0 : α) < EPS := EPS_pos
    rw [segments_intersect_eq_one_iff, bbox_overlap_eq_one_iff, h1, h2, h3, h4]
    simp only [not_or]
    constructor
    · rintro (⟨h | h, -⟩ | ⟨-, a1, a2, a3, a4⟩ | ⟨-, a1, a2, a3, a4⟩ |
        ⟨-, a1, a2, a3, a4⟩ | ⟨-, a1, a2, a3, a4⟩)
      · exact absurd h.1 (not_lt.mpr hpos.le)
      · exact absurd h.2 (not_lt.mpr hpos.le)
      · exact ⟨(not_separated_of_common (min_le_left _ _) (le_max_left _ _) a1 a2).1,
          (not_separated_of_common (min_le_left _ _) (le_max_left _ _) a1 a2).2,
          (not_separated_of_common (min_le_left _ _) (le_max_left _ _) a3 a4).1,
          (not_separated_of_common (min_le_left _ _) (le_max_left _ _) a3 a4).2⟩
      · exact ⟨(not_separated_of_common (min_le_right _ _) (le_max_right _ _) a1 a2).1,
          (not_separated_of_common (min_le_right _ _) (le_max_right _ _) a1 a2).2,
          (not_separated_of_common (min_le_right _ _) (le_max_right _ _) a3 a4).1,
          (not_separated_of_common (min_le_right _ _) (le_max_right _ _) a3 a4).2⟩
      · exact ⟨(not_separated_of_common a1 a2 (min_le_left _ _) (le_max_left _ _)).1,
          (not_separated_of_common a1 a2 (min_le_left _ _) (le_max_left _ _)).2,
          (not_separated_of_common a3 a4 (min_le_left _ _) (le_max_left _ _)).1,
          (not_separated_of_common a3 a4 (min_le_left _ _) (le_max_left _ _)).2⟩
      · exact ⟨(not_separated_of_common a1 a2 (min_le_right _ _) (le_max_right _ _)).1,
          (not_separated_of_common a1 a2 (min_le_right _ _) (le_max_right _ _)).2,
          (not_separated_of_common a3 a4 (min_le_right _ _) (le_max_right _ _)).1,
          (not_separated_of_common a3 a4 (min_le_right _ _) (le_max_right _ _)).2⟩
    · rintro ⟨hx1, hx2, hy1, hy2⟩
      have h0 : |(0 : α)| < EPS := by rw [abs_zero]; exact hpos
      rcases inRect_of_collinear h1 h3 h4 hx1 hx2 hy1 hy2 with hr | hr | hr
      · exact Or.inr (Or.inl ⟨h0, hr⟩)
      · exact Or.inr (Or.inr (Or.inr (Or.inl ⟨h0, hr⟩)))
      · exact Or.inr (Or.inr (Or.inr (Or.inr ⟨h0, hr⟩)))
  · norm_num [segments_intersect, dir, EPS, onSeg, abs_lt]
  · norm_num [segments_intersect, dir, EPS, onSeg, abs_lt]

/-- C8, at the collinear segments `(0,0)-(1,0)` and `(2,0)-(3,0)`: the four
orientation values are zero, the spans `[0,1]` and `[2,3]` are separated, and the
result is that of `bbox_overlap(0,1,0,0, 2,3,0,0)`, namely 0. -/
theorem C8_collinear_iff_spans_overlap_witness :
    (dir (2 : ℚ) 0 3 0 0 0 = 0 ∧ dir (2 : ℚ) 0 3 0 1 0 = 0 ∧
      dir (0 : ℚ) 0 1 0 2 0 = 0 ∧ dir (0 : ℚ) 0 1 0 3 0 = 0) ∧
    segments_intersect (0 : ℚ) 0 1 0 2 0 3 0 =
      bbox_overlap (min (0 : ℚ) 1) (max 0 1) (min 0 0) (max 0 0)
        (min 2 3) (max 2 3) (min 0 0) (max 0 0) :=
  ⟨⟨by norm_num [dir], by norm_num [dir], by norm_num [dir], by norm_num [dir]⟩,
    (C8_collinear_iff_spans_overlap (0 : ℚ) 0 1 0 2 0 3 0
      (by norm_num [dir]) (by norm_num [dir]) (by norm_num [dir]) (by norm_num [dir])).1⟩

/-- C9: the integer returned by `segments_intersect` is 0 or 1, and the integer
returned by `bbox_overlap` is 0 or 1. -/
theorem C9_results_are_boolean
    (p1x p1y p2x p2y p3x p3y p4x p4y axmin axmax aymin aymax bxmin bxmax bymin bymax : α) :
    (segments_intersect p1x p1y p2x p2y p3x p3y p4x p4y = 0 ∨
      segments_intersect p1x p1y p2x p2y p3x p3y p4x p4y = 1) ∧
    (bbox_overlap axmin axmax aymin aymax bxmin bxmax bymin bymax = 0 ∨
      bbox_overlap axmin axmax aymin aymax bxmin bxmax bymin bymax = 1) :=
  ⟨segments_intersect_zero_or_one _ _ _ _ _ _ _ _, bbox_overlap_zero_or_one _ _ _ _ _ _ _ _⟩

/-- C10 (as stated, refuted): there are no real arguments on which `bbox_overlap`
returns 1 and a choice of one or more of them to replace by NaN such that it
then returns 0. -/
theorem C10_nan_never_clears_overlap :
    ¬ ∃ (a1 a2 a3 a4 b1 b2 b3 b4 : ℝ) (f1 f2 f3 f4 g1 g2 g3 g4 : Bool),
      (f1 || f2 || f3 || f4 || g1 || g2 || g3 || g4) = true ∧
      IEEE.bbox_overlap (Dbl.num a1) (Dbl.num a2) (Dbl.num a3) (Dbl.num a4)
        (Dbl.num b1) (Dbl.num b2) (Dbl.num b3) (Dbl.num b4) = 1 ∧
      IEEE.bbox_overlap (IEEE.withNaN f1 a1) (IEEE.withNaN f2 a2) (IEEE.withNaN f3 a3)
        (IEEE.withNaN f4 a4) (IEEE.withNaN g1 b1) (IEEE.withNaN g2 b2)
        (IEEE.withNaN g3 b3) (IEEE.withNaN g4 b4) = 0 := by
  rintro ⟨a1, a2, a3, a4, b1, b2, b3, b4, f1, f2, f3, f4, g1, g2, g3, g4, -, h1, h0⟩
  rw [IEEE.bbox_overlap_withNaN_of_one f1 f2 f3 f4 g1 g2 g3 g4 h1] at h0
  exact absurd h0 (by decide)

/-- C10 (amended): a NaN input can only make `bbox_overlap` return true. If it
returns 1 on numbers it still returns 1 after any of them are replaced by NaN;
on `0,1,0,1` against `2,3,0,1` it returns 0, and 1 once `bxmin` is NaN; and it
returns 1 when all eight arguments are NaN. -/
theorem C10_nan_only_sets_overlap (a1 a2 a3 a4 b1 b2 b3 b4 : α)
    (f1 f2 f3 f4 g1 g2 g3 g4 : Bool)
    (h : IEEE.bbox_overlap (Dbl.num a1) (Dbl.num a2) (Dbl.num a3) (Dbl.num a4)
      (Dbl.num b1) (Dbl.num b2) (Dbl.num b3) (Dbl.num b4) = 1) :
    IEEE.bbox_overlap (IEEE.withNaN f1 a1) (IEEE.withNaN f2 a2) (IEEE.withNaN f3 a3)
        (IEEE.withNaN f4 a4) (IEEE.withNaN g1 b1) (IEEE.withNaN g2 b2)
        (IEEE.withNaN g3 b3) (IEEE.withNaN g4 b4) = 1 ∧
    IEEE.bbox_overlap (Dbl.num (0 : α)) (Dbl.num 1) (Dbl.num 0) (Dbl.num 1)
        (Dbl.num 2) (Dbl.num 3) (Dbl.num 0) (Dbl.num 1) = 0 ∧
    IEEE.bbox_overlap (Dbl.num (0 : α)) (Dbl.num 1) (Dbl.num 0) (Dbl.num 1)
        Dbl.nan (Dbl.num 3) (Dbl.num 0) (Dbl.num 1) = 1 ∧
    IEEE.bbox_overlap (Dbl.nan : Dbl α) Dbl.nan Dbl.nan Dbl.nan
        Dbl.nan Dbl.nan Dbl.nan Dbl.nan = 1 := by
  refine ⟨IEEE.bbox_overlap_withNaN_of_one f1 f2 f3 f4 g1 g2 g3 g4 h, ?_, ?_, ?_⟩
  · norm_num [IEEE.bbox_overlap, Dbl.lt]
  · norm_num [IEEE.bbox_overlap, Dbl.lt]
  · simp [IEEE.bbox_overlap, Dbl.lt]

/-- C10 (amended), at `0,1,0,1` against `1,2,0,1` with `axmax` and `bymin` replaced
by NaN: the result is 1 before and after. -/
theorem C10_nan_only_sets_overlap_witness :
    IEEE.bbox_overlap (Dbl.num (0 : ℚ)) (Dbl.num 1) (Dbl.num 0) (Dbl.num 1)
        (Dbl.num 1) (Dbl.num 2) (Dbl.num 0) (Dbl.num 1) = 1 ∧
    IEEE.bbox_overlap (Dbl.num (0 : ℚ)) Dbl.nan (Dbl.num 0) (Dbl.num 1)
        (Dbl.num 1) (Dbl.num 2) Dbl.nan (Dbl.num 1) = 1 :=
  ⟨by norm_num [IEEE.bbox_overlap, Dbl.lt],
    (C10_nan_only_sets_overlap (0 : ℚ) 1 0 1 1 2 0 1 false true false false
      false false true false (by norm_num [IEEE.bbox_overlap, Dbl.lt])).1⟩

/-! ## Proper crossings, bounding rectangles and symmetries -/

theorem opposite_of_beyond_EPS {a b : α}
    (h : (a > EPS ∧ b < -EPS) ∨ (a < -EPS ∧ b > EPS)) : Opposite a b := by
  have hpos : (0 : α) < EPS := EPS_pos
  rcases h with ⟨ha, hb⟩ | ⟨ha, hb⟩
  · exact Or.inl ⟨lt_trans hpos ha, by linarith⟩
  · exact Or.inr ⟨by linarith, lt_trans hpos hb⟩

theorem ratio_of_opposite_strict {a b : α} (h : Opposite a b) :
    a - b ≠ 0 ∧ 0 < a / (a - b) ∧ a / (a - b) < 1 := by
  rcases h with ⟨ha, hb⟩ | ⟨ha, hb⟩
  · have hpos : 0 < a - b := by linarith
    exact ⟨ne_of_gt hpos, div_pos ha hpos, by rw [div_lt_one hpos]; linarith⟩
  · have hneg : a - b < 0 := by linarith
    exact ⟨ne_of_lt hneg, div_pos_of_neg_of_neg ha hneg,
      by rw [div_lt_one_of_neg hneg]; linarith⟩

/-- Strictly opposite orientation values on both sides give a point strictly inside
both segments. -/
theorem interior_point_of_opposite {p1x p1y p2x p2y p3x p3y p4x p4y : α}
    (h12 : Opposite (dir p3x p3y p4x p4y p1x p1y) (dir p3x p3y p4x p4y p2x p2y))
    (h34 : Opposite (dir p1x p1y p2x p2y p3x p3y) (dir p1x p1y p2x p2y p4x p4y)) :
    ∃ s t : α, 0 < s ∧ s < 1 ∧ 0 < t ∧ t < 1 ∧
      p1x + s * (p2x - p1x) = p3x + t * (p4x - p3x) ∧
      p1y + s * (p2y - p1y) = p3y + t * (p4y - p3y) := by
  obtain ⟨hs, hs0, hs1⟩ := ratio_of_opposite_strict h12
  obtain ⟨ht, ht0, ht1⟩ := ratio_of_opposite_strict h34
  refine ⟨_, _, hs0, hs1, ht0, ht1, ?_, ?_⟩
  · unfold dir at hs ht ⊢
    field_simp
    ring
  · unfold dir at hs ht ⊢
    field_simp
    ring

/-- The bounding rectangles of two segments that have a common point are not
separated along either axis. -/
theorem not_separated_of_segmentsMeet {p1x p1y p2x p2y p3x p3y p4x p4y : α}
    (h : SegmentsMeet p1x p1y p2x p2y p3x p3y p4x p4y) :
    ¬ (max p1x p2x < min p3x p4x ∨ max p3x p4x < min p1x p2x ∨
        max p1y p2y < min p3y p4y ∨ max p3y p4y < min p1y p2y) := by
  obtain ⟨x, y, h12, h34⟩ := h
  obtain ⟨a1, a2, a3, a4⟩ := inRect_of_onClosedSegment h12
  obtain ⟨b1, b2, b3, b4⟩ := inRect_of_onClosedSegment h34
  have hx := not_separated_of_common a1 a2 b1 b2
  have hy := not_separated_of_common a3 a4 b3 b4
  simp only [not_or]
  exact ⟨hx.1, hx.2, hy.1, hy.2⟩

/-- An endpoint of one segment inside the bounding rectangle of the other: the two
bounding rectangles are not separated. -/
theorem not_separated_of_inRect_left {ax ay bx by_ cx cy dx dy : α}
    (h : InRect ax ay bx by_ cx cy) :
    ¬ (max ax bx < min cx dx ∨ max cx dx < min ax bx ∨
        max ay by_ < min cy dy ∨ max cy dy < min ay by_) := by
  obtain ⟨a1, a2, a3, a4⟩ := h
  have hx := not_separated_of_common a1 a2 (min_le_left cx dx) (le_max_left cx dx)
  have hy := not_separated_of_common a3 a4 (min_le_left cy dy) (le_max_left cy dy)
  simp only [not_or]
  exact ⟨hx.1, hx.2, hy.1, hy.2⟩

theorem not_separated_of_inRect_right {ax ay bx by_ cx cy dx dy : α}
    (h : InRect ax ay bx by_ dx dy) :
    ¬ (max ax bx < min cx dx ∨ max cx dx < min ax bx ∨
        max ay by_ < min cy dy ∨ max cy dy < min ay by_) := by
  obtain ⟨a1, a2, a3, a4⟩ := h
  have hx := not_separated_of_common a1 a2 (min_le_right cx dx) (le_max_right cx dx)
  have hy := not_separated_of_common a3 a4 (min_le_right cy dy) (le_max_right cy dy)
  simp only [not_or]
  exact ⟨hx.1, hx.2, hy.1, hy.2⟩

theorem not_separated_symm {a b c d e f g h : α}
    (hs : ¬ (a < b ∨ c < d ∨ e < f ∨ g < h)) : ¬ (c < d ∨ a < b ∨ g < h ∨ e < f) := by
  simp only [not_or] at hs ⊢
  exact ⟨hs.2.1, hs.1, hs.2.2.2, hs.2.2.1⟩

/-! ## Integer coordinates -/

theorem EPS_lt_one : (EPS : α) < 1 := by
  unfold EPS; norm_num

/-- An integer value is never strictly inside the tolerance band, except zero. -/
theorem decisive_intCast (m : ℤ) : Decisive (m : α) := by
  by_cases hm : m = 0
  · left
    rw [hm, Int.cast_zero]
  · right
    have h1 : (1 : ℤ) ≤ |m| := Int.one_le_abs hm
    have h2 : ((1 : ℤ) : α) ≤ ((|m| : ℤ) : α) := Int.cast_le.mpr h1
    rw [Int.cast_one, Int.cast_abs] at h2
    exact lt_of_lt_of_le EPS_lt_one h2

/-- On integer coordinates `dir` is an integer. -/
theorem dir_intCast (x1 y1 x2 y2 x3 y3 : ℤ) :
    dir (x1 : α) (y1 : α) (x2 : α) (y2 : α) (x3 : α) (y3 : α) =
      (((x2 - x1) * (y3 - y1) - (y2 - y1) * (x3 - x1) : ℤ) : α) := by
  unfold dir
  push_cast
  ring

theorem decisive_dir_intCast (x1 y1 x2 y2 x3 y3 : ℤ) :
    Decisive (dir (x1 : α) (y1 : α) (x2 : α) (y2 : α) (x3 : α) (y3 : α)) := by
  rw [dir_intCast]
  exact decisive_intCast _

/-- A segment whose two ends have the same non-zero orientation value with respect
to the line of another has no point on that line. -/
theorem not_segmentsMeet_of_parallel {p1x p1y p2x p2y p3x p3y p4x p4y : α}
    (hpar : (p2x - p1x) * (p4y - p3y) - (p2y - p1y) * (p4x - p3x) = 0)
    (hoff : dir p1x p1y p2x p2y p3x p3y ≠ 0) :
    ¬ SegmentsMeet p1x p1y p2x p2y p3x p3y p4x p4y := by
  rintro ⟨x, y, h12, ⟨t, -, -, hxt, hyt⟩⟩
  have hq := dir_of_onClosedSegment h12
  rw [hxt, hyt, dir_affine] at hq
  have h34 : dir p1x p1y p2x p2y p4x p4y = dir p1x p1y p2x p2y p3x p3y := by
    unfold dir
    linarith
  rw [h34] at hq
  apply hoff
  linarith

/-! ## Reversal and translation -/

theorem dir_swap (ax ay bx by_ cx cy : α) :
    dir bx by_ ax ay cx cy = -dir ax ay bx by_ cx cy := by
  unfold dir; ring

theorem inRect_swap (ax ay bx by_ cx cy : α) :
    InRect bx by_ ax ay cx cy ↔ InRect ax ay bx by_ cx cy := by
  unfold InRect
  rw [min_comm bx ax, max_comm bx ax, min_comm by_ ay, max_comm by_ ay]

theorem beyond_EPS_swap {a b : α} :
    ((a > EPS ∧ b < -EPS) ∨ (a < -EPS ∧ b > EPS)) ↔
      ((b > EPS ∧ a < -EPS) ∨ (b < -EPS ∧ a > EPS)) := by
  constructor
  · rintro (⟨ha, hb⟩ | ⟨ha, hb⟩)
    · exact Or.inr ⟨hb, ha⟩
    · exact Or.inl ⟨hb, ha⟩
  · rintro (⟨hb, ha⟩ | ⟨hb, ha⟩)
    · exact Or.inr ⟨ha, hb⟩
    · exact Or.inl ⟨ha, hb⟩

theorem beyond_EPS_neg {a b : α} :
    ((-a > EPS ∧ -b < -EPS) ∨ (-a < -EPS ∧ -b > EPS)) ↔
      ((a > EPS ∧ b < -EPS) ∨ (a < -EPS ∧ b > EPS)) := by
  constructor
  · rintro (⟨ha, hb⟩ | ⟨ha, hb⟩)
    · exact Or.inr ⟨by linarith, by linarith⟩
    · exact Or.inl ⟨by linarith, by linarith⟩
  · rintro (⟨ha, hb⟩ | ⟨ha, hb⟩)
    · exact Or.inr ⟨by linarith, by linarith⟩
    · exact Or.inl ⟨by linarith, by linarith⟩

/-- Reversing the first segment. -/
theorem segments_intersect_swap_first (p1x p1y p2x p2y p3x p3y p4x p4y : α) :
    segments_intersect p2x p2y p1x p1y p3x p3y p4x p4y =
      segments_intersect p1x p1y p2x p2y p3x p3y p4x p4y := by
  apply int_eq_of_one_iff (segments_intersect_zero_or_one _ _ _ _ _ _ _ _)
    (segments_intersect_zero_or_one _ _ _ _ _ _ _ _)
  rw [segments_intersect_eq_one_iff, segments_intersect_eq_one_iff,
    dir_swap p1x p1y p2x p2y p3x p3y, dir_swap p1x p1y p2x p2y p4x p4y, abs_neg, abs_neg,
    inRect_swap p1x p1y p2x p2y p3x p3y, inRect_swap p1x p1y p2x p2y p4x p4y]
  constructor
  · rintro (⟨h12, h34⟩ | h | h | h | h)
    · exact Or.inl ⟨beyond_EPS_swap.mp h12, beyond_EPS_neg.mp h34⟩
    · exact Or.inr (Or.inr (Or.inl h))
    · exact Or.inr (Or.inl h)
    · exact Or.inr (Or.inr (Or.inr (Or.inl h)))
    · exact Or.inr (Or.inr (Or.inr (Or.inr h)))
  · rintro (⟨h12, h34⟩ | h | h | h | h)
    · exact Or.inl ⟨beyond_EPS_swap.mp h12, beyond_EPS_neg.mpr h34⟩
    · exact Or.inr (Or.inr (Or.inl h))
    · exact Or.inr (Or.inl h)
    · exact Or.inr (Or.inr (Or.inr (Or.inl h)))
    · exact Or.inr (Or.inr (Or.inr (Or.inr h)))

/-- Reversing the second segment. -/
theorem segments_intersect_swap_second (p1x p1y p2x p2y p3x p3y p4x p4y : α) :
    segments_intersect p1x p1y p2x p2y p4x p4y p3x p3y =
      segments_intersect p1x p1y p2x p2y p3x p3y p4x p4y := by
  apply int_eq_of_one_iff (segments_intersect_zero_or_one _ _ _ _ _ _ _ _)
    (segments_intersect_zero_or_one _ _ _ _ _ _ _ _)
  rw [segments_intersect_eq_one_iff, segments_intersect_eq_one_iff,
    dir_swap p3x p3y p4x p4y p1x p1y, dir_swap p3x p3y p4x p4y p2x p2y, abs_neg, abs_neg,
    inRect_swap p3x p3y p4x p4y p1x p1y, inRect_swap p3x p3y p4x p4y p2x p2y]
  constructor
  · rintro (⟨h12, h34⟩ | h | h | h | h)
    · exact Or.inl ⟨beyond_EPS_neg.mp h12, beyond_EPS_swap.mp h34⟩
    · exact Or.inr (Or.inl h)
    · exact Or.inr (Or.inr (Or.inl h))
    · exact Or.inr (Or.inr (Or.inr (Or.inr h)))
    · exact Or.inr (Or.inr (Or.inr (Or.inl h)))
  · rintro (⟨h12, h34⟩ | h | h | h | h)
    · exact Or.inl ⟨beyond_EPS_neg.mpr h12, beyond_EPS_swap.mp h34⟩
    · exact Or.inr (Or.inl h)
    · exact Or.inr (Or.inr (Or.inl h))
    · exact Or.inr (Or.inr (Or.inr (Or.inr h)))
    · exact Or.inr (Or.inr (Or.inr (Or.inl h)))

theorem dir_translate (x1 y1 x2 y2 x3 y3 tx ty : α) :
    dir (x1 + tx) (y1 + ty) (x2 + tx) (y2 + ty) (x3 + tx) (y3 + ty) =
      dir x1 y1 x2 y2 x3 y3 := by
  unfold dir; ring

theorem inRect_translate (ax ay bx by_ cx cy tx ty : α) :
    InRect (ax + tx) (ay + ty) (bx + tx) (by_ + ty) (cx + tx) (cy + ty) ↔
      InRect ax ay bx by_ cx cy := by
  unfold InRect
  rw [min_add_add_right, max_add_add_right, min_add_add_right, max_add_add_right]
  simp only [add_le_add_iff_right]

/-! ## The claims about crossings, integer inputs and symmetries -/

/-- C11: when `d1, d2` have opposite signs beyond `EPS` (one above the constant of
the code, the double written `1e-9`, the other below its negation) and `d3, d4` likewise,
`segments_intersect` returns 1 and some point lies strictly inside both segments:
it is `p1 + s*(p2 - p1)` and `p3 + t*(p4 - p3)` with `0 < s < 1` and `0 < t < 1`.
On `(0,0),(2,2),(0,2),(2,0)` the result is 1 and the point is `(1,1)`, with
`s = t = 1/2`. -/
theorem C11_proper_crossing_sound (p1x p1y p2x p2y p3x p3y p4x p4y : α)
    (h12 : (dir p3x p3y p4x p4y p1x p1y > EPS ∧ dir p3x p3y p4x p4y p2x p2y < -EPS) ∨
      (dir p3x p3y p4x p4y p1x p1y < -EPS ∧ dir p3x p3y p4x p4y p2x p2y > EPS))
    (h34 : (dir p1x p1y p2x p2y p3x p3y > EPS ∧ dir p1x p1y p2x p2y p4x p4y < -EPS) ∨
      (dir p1x p1y p2x p2y p3x p3y < -EPS ∧ dir p1x p1y p2x p2y p4x p4y > EPS)) :
    segments_intersect p1x p1y p2x p2y p3x p3y p4x p4y = 1 ∧
    (∃ x y s t : α, 0 < s ∧ s < 1 ∧ 0 < t ∧ t < 1 ∧
      x = p1x + s * (p2x - p1x) ∧ y = p1y + s * (p2y - p1y) ∧
      x = p3x + t * (p4x - p3x) ∧ y = p3y + t * (p4y - p3y)) ∧
    segments_intersect (0 : α) 0 2 2 0 2 2 0 = 1 ∧
    ((1 : α) = 0 + 1 / 2 * (2 - 0) ∧ (1 : α) = 0 + 1 / 2 * (2 - 0) ∧
      (1 : α) = 0 + 1 / 2 * (2 - 0) ∧ (1 : α) = 2 + 1 / 2 * (0 - 2)) := by
  refine ⟨?_, ?_, ?_, ?_⟩
  · rw [segments_intersect_eq_one_iff]
    exact Or.inl ⟨h12, h34⟩
  · obtain ⟨s, t, hs0, hs1, ht0, ht1, hx, hy⟩ :=
      interior_point_of_opposite (opposite_of_beyond_EPS h12) (opposite_of_beyond_EPS h34)
    exact ⟨p1x + s * (p2x - p1x), p1y + s * (p2y - p1y), s, t, hs0, hs1, ht0, ht1,
      rfl, rfl, hx, hy⟩
  · norm_num [segments_intersect, dir, EPS, onSeg, abs_lt]
  · norm_num

/-- C11, at the crossing `(0,0)-(2,2)` against `(0,2)-(2,0)`: the orientation values
are `-4, 4` and `4, -4`, all beyond the tolerance. -/
theorem C11_proper_crossing_sound_witness :
    ((dir (0 : ℚ) 2 2 0 0 0 < -EPS ∧ dir (0 : ℚ) 2 2 0 2 2 > EPS) ∧
      (dir (0 : ℚ) 0 2 2 0 2 > EPS ∧ dir (0 : ℚ) 0 2 2 2 0 < -EPS)) ∧
    segments_intersect (0 : ℚ) 0 2 2 0 2 2 0 = 1 ∧
    (∃ x y s t : ℚ, 0 < s ∧ s < 1 ∧ 0 < t ∧ t < 1 ∧
      x = 0 + s * (2 - 0) ∧ y = 0 + s * (2 - 0) ∧
      x = 0 + t * (2 - 0) ∧ y = 2 + t * (0 - 2)) :=
  ⟨⟨by norm_num [dir, EPS], by norm_num [dir, EPS]⟩,
    (C11_proper_crossing_sound (0 : ℚ) 0 2 2 0 2 2 0
      (Or.inr (by norm_num [dir, EPS])) (Or.inl (by norm_num [dir, EPS]))).1,
    (C11_proper_crossing_sound (0 : ℚ) 0 2 2 0 2 2 0
      (Or.inr (by norm_num [dir, EPS])) (Or.inl (by norm_num [dir, EPS]))).2.1⟩

/-- C12: on integer coordinates `segments_intersect` returns 1 if and only if some
point of the plane lies on both closed segments (degenerate segments included), and
0 otherwise; in particular it returns 0 when the two direction vectors are parallel
and `p3` is off the line of `p1, p2`; `segments_intersect((0,0),(1,0),(0,1),(1,1)) = 0`. -/
theorem C12_integer_coordinates_exact (p1x p1y p2x p2y p3x p3y p4x p4y : ℤ) :
    (segments_intersect (p1x : α) (p1y : α) (p2x : α) (p2y : α)
        (p3x : α) (p3y : α) (p4x : α) (p4y : α) = 1 ↔
      SegmentsMeet (p1x : α) (p1y : α) (p2x : α) (p2y : α)
        (p3x : α) (p3y : α) (p4x : α) (p4y : α)) ∧
    (segments_intersect (p1x : α) (p1y : α) (p2x : α) (p2y : α)
        (p3x : α) (p3y : α) (p4x : α) (p4y : α) = 0 ↔
      ¬ SegmentsMeet (p1x : α) (p1y : α) (p2x : α) (p2y : α)
        (p3x : α) (p3y : α) (p4x : α) (p4y : α)) ∧
    ((p2x - p1x) * (p4y - p3y) - (p2y - p1y) * (p4x - p3x) = 0 ∧
        (p2x - p1x) * (p3y - p1y) - (p2y - p1y) * (p3x - p1x) ≠ 0 →
      segments_intersect (p1x : α) (p1y : α) (p2x : α) (p2y : α)
        (p3x : α) (p3y : α) (p4x : α) (p4y : α) = 0) ∧
    segments_intersect (0 : α) 0 1 0 0 1 1 1 = 0 := by
  have key : segments_intersect (p1x : α) (p1y : α) (p2x : α) (p2y : α)
      (p3x : α) (p3y : α) (p4x : α) (p4y : α) = 1 ↔
      SegmentsMeet (p1x : α) (p1y : α) (p2x : α) (p2y : α)
        (p3x : α) (p3y : α) (p4x : α) (p4y : α) := by
    rw [segmentsMeet_iff_exactTest]
    exact segments_intersect_eq_one_iff_exactTest (decisive_dir_intCast _ _ _ _ _ _)
      (decisive_dir_intCast _ _ _ _ _ _) (decisive_dir_intCast _ _ _ _ _ _)
      (decisive_dir_intCast _ _ _ _ _ _)
  have key0 : segments_intersect (p1x : α) (p1y : α) (p2x : α) (p2y : α)
      (p3x : α) (p3y : α) (p4x : α) (p4y : α) = 0 ↔
      ¬ SegmentsMeet (p1x : α) (p1y : α) (p2x : α) (p2y : α)
        (p3x : α) (p3y : α) (p4x : α) (p4y : α) := by
    rw [segments_intersect_eq_zero_iff, key]
  refine ⟨key, key0, ?_, ?_⟩
  · rintro ⟨hpar, hoff⟩
    rw [key0]
    apply not_segmentsMeet_of_parallel
    · exact_mod_cast hpar
    · rw [dir_intCast]
      exact_mod_cast hoff
  · norm_num [segments_intersect, dir, EPS, onSeg, abs_lt]

/-- C12, at the integer segments `(0,0)-(1,0)` and `(0,1)-(1,1)`: the directions are
parallel, `p3 = (0,1)` is off the line `y = 0`, and the result is 0. -/
theorem C12_integer_coordinates_exact_witness :
    (((1 : ℤ) - 0) * (1 - 1) - (0 - 0) * (1 - 0) = 0 ∧
      ((1 : ℤ) - 0) * (1 - 0) - (0 - 0) * (0 - 0) ≠ 0) ∧
    segments_intersect (((0 : ℤ) : ℚ)) ((0 : ℤ) : ℚ) ((1 : ℤ) : ℚ) ((0 : ℤ) : ℚ)
      ((0 : ℤ) : ℚ) ((1 : ℤ) : ℚ) ((1 : ℤ) : ℚ) ((1 : ℤ) : ℚ) = 0 :=
  ⟨by decide, (C12_integer_coordinates_exact 0 0 1 0 0 1 1 1).2.2.1 (by decide)⟩

/-- C13: when `segments_intersect` returns 1, `bbox_overlap` applied to the bounding
rectangles of the two segments returns 1; equivalently, when `bbox_overlap` of the
bounding rectangles returns 0, `segments_intersect` returns 0. -/
theorem C13_bbox_overlap_is_sound_prefilter (p1x p1y p2x p2y p3x p3y p4x p4y : α) :
    (segments_intersect p1x p1y p2x p2y p3x p3y p4x p4y = 1 →
      bbox_overlap (min p1x p2x) (max p1x p2x) (min p1y p2y) (max p1y p2y)
        (min p3x p4x) (max p3x p4x) (min p3y p4y) (max p3y p4y) = 1) ∧
    (bbox_overlap (min p1x p2x) (max p1x p2x) (min p1y p2y) (max p1y p2y)
        (min p3x p4x) (max p3x p4x) (min p3y p4y) (max p3y p4y) = 0 →
      segments_intersect p1x p1y p2x p2y p3x p3y p4x p4y = 0) := by
  have key : segments_intersect p1x p1y p2x p2y p3x p3y p4x p4y = 1 →
      bbox_overlap (min p1x p2x) (max p1x p2x) (min p1y p2y) (max p1y p2y)
        (min p3x p4x) (max p3x p4x) (min p3y p4y) (max p3y p4y) = 1 := by
    intro h
    rw [segments_intersect_eq_one_iff] at h
    rw [bbox_overlap_eq_one_iff]
    rcases h with ⟨h12, h34⟩ | ⟨-, hr⟩ | ⟨-, hr⟩ | ⟨-, hr⟩ | ⟨-, hr⟩
    · exact not_separated_of_segmentsMeet
        (segmentsMeet_of_opposite (opposite_of_beyond_EPS h12) (opposite_of_beyond_EPS h34))
    · exact not_separated_symm (not_separated_of_inRect_left hr)
    · exact not_separated_symm (not_separated_of_inRect_right hr)
    · exact not_separated_of_inRect_left hr
    · exact not_separated_of_inRect_right hr
  refine ⟨key, ?_⟩
  intro h0
  rw [segments_intersect_eq_zero_iff]
  intro h1
  rw [key h1] at h0
  exact absurd h0 (by decide)

/-- C13, at the crossing `(0,0)-(2,2)` against `(0,2)-(2,0)` (both results 1) and at
the separated segments `(0,0)-(1,0)` and `(2,0)-(3,0)` (both results 0). -/
theorem C13_bbox_overlap_is_sound_prefilter_witness :
    (segments_intersect (0 : ℚ) 0 2 2 0 2 2 0 = 1 ∧
      bbox_overlap (min (0 : ℚ) 2) (max 0 2) (min 0 2) (max 0 2)
        (min 0 2) (max 0 2) (min 2 0) (max 2 0) = 1) ∧
    (bbox_overlap (min (0 : ℚ) 1) (max 0 1) (min 0 0) (max 0 0)
        (min 2 3) (max 2 3) (min 0 0) (max 0 0) = 0 ∧
      segments_intersect (0 : ℚ) 0 1 0 2 0 3 0 = 0) :=
  ⟨⟨by norm_num [segments_intersect, dir, EPS, onSeg, abs_lt],
      (C13_bbox_overlap_is_sound_prefilter (0 : ℚ) 0 2 2 0 2 2 0).1
        (by norm_num [segments_intersect, dir, EPS, onSeg, abs_lt])⟩,
    ⟨by norm_num [bbox_overlap],
      (C13_bbox_overlap_is_sound_prefilter (0 : ℚ) 0 1 0 2 0 3 0).2
        (by norm_num [bbox_overlap])⟩⟩

/-- C14: the order of the two endpoints of a segment does not matter:
`segments_intersect(p1,p2,p3,p4) = segments_intersect(p2,p1,p3,p4)
= segments_intersect(p1,p2,p4,p3)`. -/
theorem C14_endpoint_order_irrelevant (p1x p1y p2x p2y p3x p3y p4x p4y : α) :
    segments_intersect p1x p1y p2x p2y p3x p3y p4x p4y =
        segments_intersect p2x p2y p1x p1y p3x p3y p4x p4y ∧
    segments_intersect p2x p2y p1x p1y p3x p3y p4x p4y =
        segments_intersect p1x p1y p2x p2y p4x p4y p3x p3y :=
  ⟨(segments_intersect_swap_first p1x p1y p2x p2y p3x p3y p4x p4y).symm,
    (segments_intersect_swap_first p1x p1y p2x p2y p3x p3y p4x p4y).trans
      (segments_intersect_swap_second p1x p1y p2x p2y p3x p3y p4x p4y).symm⟩

/-- C15: adding `tx` to the four x-coordinates and `ty` to the four y-coordinates
does not change the result of `segments_intersect`. -/
theorem C15_translation_invariant (p1x p1y p2x p2y p3x p3y p4x p4y tx ty : α) :
    segments_intersect (p1x + tx) (p1y + ty) (p2x + tx) (p2y + ty)
        (p3x + tx) (p3y + ty) (p4x + tx) (p4y + ty) =
      segments_intersect p1x p1y p2x p2y p3x p3y p4x p4y := by
  apply int_eq_of_one_iff (segments_intersect_zero_or_one _ _ _ _ _ _ _ _)
    (segments_intersect_zero_or_one _ _ _ _ _ _ _ _)
  rw [segments_intersect_eq_one_iff, segments_intersect_eq_one_iff]
  simp only [dir_translate, inRect_translate]

/-- C16: `bbox_overlap` is symmetric in its two boxes, with no ordering assumption. -/
theorem C16_bbox_overlap_symm (axmin axmax aymin aymax bxmin bxmax bymin bymax : α) :
    bbox_overlap axmin axmax aymin aymax bxmin bxmax bymin bymax =
      bbox_overlap bxmin bxmax bymin bymax axmin axmax aymin aymax := by
  apply int_eq_of_one_iff (bbox_overlap_zero_or_one _ _ _ _ _ _ _ _)
    (bbox_overlap_zero_or_one _ _ _ _ _ _ _ _)
  rw [bbox_overlap_eq_one_iff, bbox_overlap_eq_one_iff]
  exact ⟨not_separated_symm, not_separated_symm⟩

end Geometry
